import Mathlib

/-!
# Verification of the ScanPower MCP server's dynamic operation dispatcher

This development shallowly embeds the TypeScript source of the ScanPower MCP
server (the `ScanPowerAPIClient` / `ScanPowerMCPServer` classes): the OpenAPI
operation compiler, the specification loader, and the per-call tool dispatcher
installed as the `CallToolRequestSchema` handler.  JavaScript runtime values
are modelled by `JValue` (with `undefined` and `null` kept distinct, since the
source distinguishes `v === undefined`, `!val` and `??`), network effects are
modelled by an `Oracle` supplying the outcome of each upstream exchange, and
each dispatched call is a pure function from server state, tool name,
arguments and oracle to an outcome, a new session state, exchange counters and
the (at most one) attempted upstream HTTP request.
-/

set_option maxHeartbeats 1000000

namespace ScanMCP

/-- JavaScript runtime values as far as the dispatcher inspects them.
`vUndefined` models `undefined` (in particular an absent object field) and
`vNull` models `null`; the two behave differently under the source's
`=== undefined` tests, so both are kept. -/
inductive JValue where
  | vUndefined
  | vNull
  | vBool (b : Bool)
  | vNum (n : Int)
  | vStr (s : String)
  | vArr (elems : List JValue)
  | vObj (fields : List (String × JValue))

/-- Test for `undefined` (the source's `v === undefined` / `v !== undefined`). -/
def jIsUndefined : JValue → Bool
  | .vUndefined => true
  | _ => false

/-- Strict equality `v === s` against a string literal (the only strict
comparisons the source performs on argument values). -/
def jIsStr (v : JValue) (s : String) : Bool :=
  match v with
  | .vStr t => t = s
  | _ => false

/-- JavaScript truthiness (`if (v)`, `!v`, `a || b`). -/
def jTruthy : JValue → Bool
  | .vUndefined => false
  | .vNull => false
  | .vBool b => b
  | .vNum n => n != 0
  | .vStr s => s != ""
  | .vArr _ => true
  | .vObj _ => true

/-- `v == null` in the loose sense used by `??` (nullish). -/
def jIsNullish : JValue → Bool
  | .vUndefined => true
  | .vNull => true
  | _ => false

/-- JavaScript `a ?? b`. -/
def jCoalesce (a b : JValue) : JValue :=
  if jIsNullish a then b else a

/-- JavaScript `a || b`. -/
def jOr (a b : JValue) : JValue :=
  if jTruthy a then a else b

/-- Property access `v[k]` / `v?.k` on the values the dispatcher reads:
object fields are looked up by key, anything else yields `undefined`
(the source only dereferences after truthiness guards or via `?.`). -/
def jget : JValue → String → JValue
  | .vObj fields, k => (fields.lookup k).getD .vUndefined
  | _, _ => .vUndefined

/-- `Object.keys(v)` (insertion order) for objects, `[]` otherwise. -/
def jKeys : JValue → List String
  | .vObj fields => fields.map Prod.fst
  | _ => []

/-- The element list of a JS array value, `[]` otherwise. -/
def jElems : JValue → List JValue
  | .vArr xs => xs
  | _ => []

/-- JavaScript object assignment `o[k] = v` on an association list: an
existing key keeps its position and gets the new value, a fresh key is
appended. -/
def jsetKey : List (String × JValue) → String → JValue → List (String × JValue)
  | [], k, v => [(k, v)]
  | (k1, v1) :: rest, k, v =>
    if k1 = k then (k, v) :: rest else (k1, v1) :: jsetKey rest k v

/-- JavaScript `delete o[k]`. -/
def jdelKey (fields : List (String × JValue)) (k : String) : List (String × JValue) :=
  fields.filter (fun kv => kv.fst != k)

/-- Association-list lookup used for header/query objects. -/
def lookupKey (fields : List (String × JValue)) (k : String) : Option JValue :=
  fields.lookup k

/-- The opening brace character, written by code point to keep it out of
string literals. -/
def braceOpen : Char := Char.ofNat 123

/-- The closing brace character. -/
def braceClose : Char := Char.ofNat 125

/-- The template placeholder `\x7bname\x7d` built for a path parameter,
mirroring the template literal used in `urlPath.replace`. -/
def mkPlaceholder (p : String) : String :=
  String.mk (braceOpen :: p.toList ++ [braceClose])

/-- Replace the first occurrence of `pat` in a character list (JavaScript
`String.prototype.replace` with a string pattern); no occurrence leaves the
list unchanged. -/
def replaceFirstL (pat repl : List Char) : List Char → List Char
  | [] => []
  | c :: cs =>
    if pat.isPrefixOf (c :: cs) then repl ++ (c :: cs).drop pat.length
    else c :: replaceFirstL pat repl cs

/-- JavaScript `s.replace(pat, repl)` for a plain (non-regex) pattern. -/
def jsReplaceFirst (s pat repl : String) : String :=
  String.mk (replaceFirstL pat.toList repl.toList s.toList)

/-- Substring test on character lists (JavaScript `String.prototype.includes`). -/
def containsL (pat : List Char) : List Char → Bool
  | [] => pat.isEmpty
  | c :: cs => pat.isPrefixOf (c :: cs) || containsL pat cs

/-- JavaScript `s.includes(t)`. -/
def jsIncludes (s t : String) : Bool :=
  containsL t.toList s.toList

/-- JavaScript `s.startsWith(t)`. -/
def jsStartsWith (s t : String) : Bool :=
  t.toList.isPrefixOf s.toList

/-- JavaScript `s.endsWith(t)`. -/
def jsEndsWith (s t : String) : Bool :=
  t.toList.isSuffixOf s.toList

/-- JavaScript `s.trim()`. -/
def jsTrim (s : String) : String :=
  String.mk (((s.toList.dropWhile Char.isWhitespace).reverse.dropWhile
    Char.isWhitespace).reverse)

/-- JavaScript `s.toLowerCase()` (ASCII case fold, which is all the source
compares). -/
def jsToLower (s : String) : String :=
  String.mk (s.toList.map Char.toLower)

/-- JavaScript `s.toUpperCase()` (ASCII case fold, which is all the source
needs: it is applied to the method names `get`/`post`/...). -/
def jsToUpper (s : String) : String :=
  String.mk (s.toList.map Char.toUpper)

/-- The input-name sanitizer `name.replace(/[-.]/g, '_')`. -/
def sanitizeName (s : String) : String :=
  String.mk (s.toList.map (fun c => if c = '-' ∨ c = '.' then '_' else c))

mutual

/-- JavaScript `String(v)` on the values that can reach a template literal
(array elements that are nullish stringify to the empty string). -/
def jToString : JValue → String
  | .vUndefined => "undefined"
  | .vNull => "null"
  | .vBool b => if b then "true" else "false"
  | .vNum n => toString n
  | .vStr s => s
  | .vArr xs => String.intercalate "," (jToStringList xs)
  | .vObj _ => "[object Object]"

/-- Stringification of array elements for `jToString`. -/
def jToStringList : List JValue → List String
  | [] => []
  | .vNull :: vs => "" :: jToStringList vs
  | .vUndefined :: vs => "" :: jToStringList vs
  | v :: vs => jToString v :: jToStringList vs

end

/-- The unreserved punctuation of `encodeURIComponent` (apostrophe written
by code point). -/
def uriUnreservedExtra : List Char := ['-', '_', '.', '!', '~', '*', Char.ofNat 39, '(', ')']

/-- Characters `encodeURIComponent` leaves unescaped. -/
def isUriUnreserved (c : Char) : Bool :=
  (decide ('A' ≤ c) && decide (c ≤ 'Z')) ||
  (decide ('a' ≤ c) && decide (c ≤ 'z')) ||
  (decide ('0' ≤ c) && decide (c ≤ '9')) ||
  uriUnreservedExtra.contains c

/-- Uppercase hex digit for a nibble. -/
def hexDigitChar (n : Nat) : Char :=
  if n < 10 then Char.ofNat (48 + n) else Char.ofNat (55 + n)

/-- The UTF-8 bytes of a character (percent-escaping operates bytewise). -/
def utf8BytesOfChar (c : Char) : List Nat :=
  let n := c.toNat
  if n < 128 then [n]
  else if n < 2048 then [192 + n / 64, 128 + n % 64]
  else if n < 65536 then [224 + n / 4096, 128 + (n / 64) % 64, 128 + n % 64]
  else [240 + n / 262144, 128 + (n / 4096) % 64, 128 + (n / 64) % 64, 128 + n % 64]

/-- Encoding of one character under `encodeURIComponent`. -/
def encodeChar (c : Char) : List Char :=
  if isUriUnreserved c then [c]
  else (utf8BytesOfChar c).foldr
    (fun b acc => '%' :: hexDigitChar (b / 16) :: hexDigitChar (b % 16) :: acc) []

/-- JavaScript `encodeURIComponent`. -/
def encodeURIComponent (s : String) : String :=
  String.mk (s.toList.foldr (fun c acc => encodeChar c ++ acc) [])

/-- One entry of the dispatcher's `missingInputs` array
(`{ name, description, in, schema }`; `in` is spelled `loc`). -/
structure MissingInput where
  name : String
  description : JValue
  loc : String
  schema : JValue

/-- One entry of the elicitation response's `requires` array (the final
`map` drops the `in` field). -/
structure RequiredInput where
  name : String
  description : JValue
  schema : JValue

/-- A compiled Operation Descriptor: one value of `operationMap`, exactly the
object built by `opMap.set(operationId, {...})` in
`loadOpenApiAndGenerateTools`.  The `paramDefs` buckets are represented as
three lists; `security`, `bodySchema` and the parameter definitions stay raw
JSON.  The per-call `op.useBasicAuth` assignment is modelled as the local
boolean it is immediately read back as. -/
structure Operation where
  method : String
  path : String
  pathHasTrailingSlash : Bool
  pathParams : List String
  queryParams : List String
  headerParams : List String
  pathParamDefs : List JValue
  queryParamDefs : List JValue
  headerParamDefs : List JValue
  security : JValue
  bodyRequired : Bool
  bodySchema : JValue

/-- The mutable state of `ScanPowerAPIClient`: the static config (username,
password, delegated `proxyUserId`) plus the two cached tokens, which are
`string | null` fields that can also end up holding whatever the upstream
response carried. -/
structure ClientState where
  baseUrl : String
  username : String
  password : String
  proxyUserId : Option String
  apiToken : JValue
  amazonAccessToken : JValue

/-- Outcomes of the three kinds of upstream exchange a single dispatched
call can perform.  `tokenFetch` is `GET /api/v2/token` yielding
`response.data.token`; `amazonFetch` is `GET /api/az/access-token` yielding
`response.data.access_token`; `upstream` is the dispatched operation request
yielding `response.data`.  An `error` carries the stringified axios error. -/
structure Oracle where
  tokenFetch : Except String JValue
  amazonFetch : Except String JValue
  upstream : Except String JValue

/-- The axios request config assembled by the dispatcher (`axiosConfig`).
`params` is `none` when the query set is empty (the source passes
`undefined` then); `auth` carries HTTP Basic credentials when set. -/
structure HttpRequest where
  method : String
  url : String
  params : Option (List (String × JValue))
  data : JValue
  headers : List (String × JValue)
  auth : Option (String × String)

/-- The response shape of one `CallToolRequestSchema` invocation.
`notReady` is the `isError: true` "Server is not ready yet" result;
`proxyConfirmation` is the early-return confirmation text (modelled by the
proxy user id it embeds); `elicitation` is the non-error `requires`
response; `success` carries `response.data` (the rendered text, including
the bespoke `getProxyUsers` list formatting, is not modelled);
`errorResult` is the `isError: true` result built by the catch block
(modelled by its `Error: ...` message, eliding the serialized request
details); `handlerException` is an exception thrown *inside* the catch
block itself, which escapes the handler instead of producing a result. -/
inductive CallOutcome where
  | notReady
  | proxyConfirmation (userId : String)
  | elicitation (requires : List RequiredInput)
  | success (payload : JValue)
  | errorResult (message : String)
  | handlerException (message : String)

/-- Everything observable about one dispatched call: the outcome, the client
state after the call, how many `authenticate()` exchanges and Amazon
access-token fetches were performed, and the attempted upstream operation
request, if dispatch got that far (`some` even when the upstream answered
with an error). -/
structure DispatchResult where
  outcome : CallOutcome
  client : ClientState
  authExchanges : Nat
  amazonFetches : Nat
  issued : Option HttpRequest

/-- A generated Tool Descriptor. -/
structure Tool where
  name : String
  description : String
  inputSchema : JValue

/-- The `ScanPowerMCPServer` state consulted by the handler. -/
structure ServerState where
  isReady : Bool
  openApi : JValue
  operationMap : List (String × Operation)
  generatedTools : List Tool
  client : ClientState

/-- The value axios actually sends for a header key: entries whose value is
`null` or `undefined` are dropped from the wire request (setting a header
to null removes it), the rest are stringified. -/
def wireHeaderValue (headers : List (String × JValue)) (k : String) : Option String :=
  match lookupKey headers k with
  | some v => if jIsNullish v then none else some (jToString v)
  | none => none

/-- The trimmed `proxy_user_id` argument, when the guard
`typedArgs && typeof typedArgs.proxy_user_id === 'string' &&
typedArgs.proxy_user_id.trim().length > 0` passes. -/
def proxyUpdateValue (args : JValue) : Option String :=
  if jTruthy args then
    match jget args "proxy_user_id" with
    | .vStr s => if jsTrim s ≠ "" then some (jsTrim s) else none
    | _ => none
  else none

/-- The path-parameter loop: each declared path parameter is read under its
original or sanitized name; an `undefined` value records a missing input
(looking its definition up in `paramDefs.path`), otherwise the first
occurrence of its placeholder is substituted with the URL-encoded value. -/
def buildPath (args : JValue) (defs : List JValue) :
    List String → String → List MissingInput → String × List MissingInput
  | [], url, miss => (url, miss)
  | p :: ps, url, miss =>
    let v := jCoalesce (jget args p) (jget args (sanitizeName p))
    if jIsUndefined v then
      let d := (defs.find? (fun pd => jIsStr (jget pd "name") p)).getD .vUndefined
      buildPath args defs ps url
        (miss ++ [⟨sanitizeName p, jget d "description", "path", jget d "schema"⟩])
    else
      buildPath args defs ps
        (jsReplaceFirst url (mkPlaceholder p) (encodeURIComponent (jToString v))) miss

/-- Re-append the trailing slash dropped from the template, when the
compiled flag records the original path had one. -/
def restoreTrailingSlash (flag : Bool) (url : String) : String :=
  if flag ∧ ¬ jsEndsWith url "/" then url ++ "/" else url

/-- The query-parameter loop: a defined value is assigned into the query
object; an absent one is recorded as missing only when its definition is
marked required. -/
def buildQuery (args : JValue) (defs : List JValue) :
    List String → List (String × JValue) → List MissingInput →
    List (String × JValue) × List MissingInput
  | [], acc, miss => (acc, miss)
  | q :: qs, acc, miss =>
    let val := jCoalesce (jget args q) (jget args (sanitizeName q))
    if ¬ jIsUndefined val then
      buildQuery args defs qs (jsetKey acc q val) miss
    else
      let d := (defs.find? (fun pd => jIsStr (jget pd "name") q)).getD .vUndefined
      if jTruthy (jget d "required") then
        buildQuery args defs qs acc
          (miss ++ [⟨sanitizeName q, jget d "description", "query", jget d "schema"⟩])
      else buildQuery args defs qs acc miss

/-- Accumulator of the header-parameter loop. -/
structure HeaderStage where
  headers : List (String × JValue)
  miss : List MissingInput
  client : ClientState
  fetches : Nat

/-- One iteration of the header-parameter loop, with the `x-access-token`
special case: when that header has a falsy caller value and no truthy
cached Amazon token, `getAmazonAccessToken()` is attempted once (caching
the token on success, swallowing the failure), and the cached field is then
used as the value.  A value that is not `undefined` is assigned into the
headers object; otherwise a required definition records a missing input. -/
def buildHeaderStep (args : JValue) (defs : List JValue) (o : Oracle)
    (h : String) (st : HeaderStage) : HeaderStage :=
  let val0 := jCoalesce (jget args h) (jget args (sanitizeName h))
  let st1 :=
    if h = "x-access-token" ∧ ¬ jTruthy val0 ∧ ¬ jTruthy st.client.amazonAccessToken then
      match o.amazonFetch with
      | .ok t =>
        { st with
          client := { st.client with amazonAccessToken := t }
          fetches := st.fetches + 1 }
      | .error _ => { st with fetches := st.fetches + 1 }
    else st
  let val := if h = "x-access-token" ∧ ¬ jTruthy val0 then st1.client.amazonAccessToken
    else val0
  if ¬ jIsUndefined val then { st1 with headers := jsetKey st1.headers h val }
  else
    let d := (defs.find? (fun pd => jIsStr (jget pd "name") h)).getD .vUndefined
    if jTruthy (jget d "required") then
      { st1 with miss := st1.miss ++
          [⟨sanitizeName h, jget d "description", "header", jget d "schema"⟩] }
    else st1

/-- The header-parameter loop. -/
def buildHeaders (args : JValue) (defs : List JValue) (o : Oracle) :
    List String → HeaderStage → HeaderStage
  | [], st => st
  | h :: hs, st => buildHeaders args defs o hs (buildHeaderStep args defs o h st)

/-- `this.openApi?.components?.securitySchemes?.[name]`. -/
def schemeOf (openApi : JValue) (n : String) : JValue :=
  jget (jget (jget openApi "components") "securitySchemes") n

/-- Whether a named scheme of the first requirement selects HTTP Basic: a
resolvable (truthy) scheme of type `http`/`https` with scheme `basic`, or a
scheme name containing "basic" (which subsumes the source's redundant
`includes('basic_auth')` check). -/
def isBasicSchemeName (openApi : JValue) (n : String) : Bool :=
  let scheme := schemeOf openApi n
  if ¬ jTruthy scheme then false
  else
    let ty := jsToLower (jToString (jOr (jget scheme "type") (.vStr "")))
    let hs := jsToLower (jToString (jOr (jget scheme "scheme") (.vStr "")))
    ((ty = "http" ∨ ty = "https") ∧ hs = "basic") ∨ jsIncludes (jsToLower n) "basic"

/-- Whether a named scheme resolves to HTTP Bearer. -/
def isBearerSchemeName (openApi : JValue) (n : String) : Bool :=
  let scheme := schemeOf openApi n
  if ¬ jTruthy scheme then false
  else
    let ty := jsToLower (jToString (jOr (jget scheme "type") (.vStr "")))
    let hs := jsToLower (jToString (jOr (jget scheme "scheme") (.vStr "")))
    (ty = "http" ∨ ty = "https") ∧ hs = "bearer"

/-- `ScanPowerAPIClient.authenticate()`: one Basic-credentialed exchange
against `/api/v2/token` (carrying the delegated-user header when set);
success yields `response.data.token` (which the caller stores into
`apiToken`), failure is wrapped and rethrown. -/
def authenticate (o : Oracle) : Except String JValue :=
  match o.tokenFetch with
  | .ok t => .ok t
  | .error e => .error ("Authentication failed: " ++ e)

/-- Result of the per-operation security resolution: the updated headers and
the `useBasicAuth` flag on success, a thrown message on failure, plus the
client state and the number of `authenticate()` exchanges performed. -/
structure AuthStage where
  result : Except String (List (String × JValue) × Bool)
  client : ClientState
  exchanges : Nat

/-- The security section of the dispatcher: only the first requirement group
is consulted; any basic-style scheme in it wins and strips the
`Authorization` header; otherwise the first bearer scheme resolves a token
(caller `api_token`, else cached, else one `authenticate()` exchange) and
sets the bearer header, failing hard when no token results. -/
def resolveAuth (openApi : JValue) (op : Operation) (args : JValue)
    (headers : List (String × JValue)) (client : ClientState) (o : Oracle) : AuthStage :=
  match op.security with
  | .vArr (requirement :: _) =>
    let names := jKeys requirement
    if names.any (isBasicSchemeName openApi) then
      ⟨.ok (jdelKey headers "Authorization", true), client, 0⟩
    else
      match names.find? (isBearerSchemeName openApi) with
      | none => ⟨.ok (headers, false), client, 0⟩
      | some _ =>
        let token := jOr (jget args "api_token") client.apiToken
        if ¬ jTruthy token then
          match authenticate o with
          | .error e => ⟨.error e, client, 1⟩
          | .ok t =>
            let client1 : ClientState := { client with apiToken := t }
            let finalToken := jOr (jget args "api_token") client1.apiToken
            if ¬ jTruthy finalToken then
              ⟨.error "Missing bearer token (api_token)", client1, 1⟩
            else
              ⟨.ok (jsetKey headers "Authorization"
                  (.vStr ("Bearer " ++ jToString finalToken)), false), client1, 1⟩
        else
          let finalToken := jOr (jget args "api_token") client.apiToken
          if ¬ jTruthy finalToken then
            ⟨.error "Missing bearer token (api_token)", client, 0⟩
          else
            ⟨.ok (jsetKey headers "Authorization"
                (.vStr ("Bearer " ++ jToString finalToken)), false), client, 0⟩
  | _ => ⟨.ok (headers, false), client, 0⟩

/-- The catch block at the dispatcher boundary.  It builds `requestDetails`
whose `axiosConfig.method` field dereferences `op`; when the error was
thrown before `op` was assigned (the unknown-tool throw), `op` is still
`null`, the member access itself throws a TypeError, and that exception
escapes the handler instead of yielding a tool result.  When `op` is set,
the result is the `isError: true` text `Error: <message>` (the appended
serialized request details are elided here). -/
def catchToolError (op : Option Operation) (msg : String) : CallOutcome :=
  match op with
  | none => .handlerException "TypeError: Cannot read properties of null (reading method)"
  | some _ => .errorResult ("Error: " ++ msg)

/-- `argsOrEmpty = typedArgs || {}`. -/
def opArgsOrEmpty (args : JValue) : JValue := jOr args (.vObj [])

/-- The URL-building stage of one dispatch (before the trailing-slash
restore), paired with the missing path inputs. -/
def opUrlStage (op : Operation) (args : JValue) : String × List MissingInput :=
  buildPath (opArgsOrEmpty args) op.pathParamDefs op.pathParams op.path []

/-- The query-building stage, threading the missing-input accumulator. -/
def opQueryStage (op : Operation) (args : JValue) :
    List (String × JValue) × List MissingInput :=
  buildQuery (opArgsOrEmpty args) op.queryParamDefs op.queryParams [] (opUrlStage op args).snd

/-- The header-building stage, threading the accumulator and client. -/
def opHeaderStage (op : Operation) (args : JValue) (client0 : ClientState)
    (o : Oracle) : HeaderStage :=
  buildHeaders (opArgsOrEmpty args) op.headerParamDefs o op.headerParams
    ⟨[], (opQueryStage op args).snd, client0, 0⟩

/-- The missing-input entry recorded for a required, absent body. -/
def bodyMissingEntry (op : Operation) : MissingInput :=
  ⟨"body", .vStr "Request body", "body",
    jOr op.bodySchema (.vObj [("type", .vStr "object")])⟩

/-- The complete `missingInputs` array after the four collection stages. -/
def opMissingInputs (op : Operation) (args : JValue) (client0 : ClientState)
    (o : Oracle) : List MissingInput :=
  if op.bodyRequired ∧ jIsUndefined (jget (opArgsOrEmpty args) "body") then
    (opHeaderStage op args client0 o).miss ++ [bodyMissingEntry op]
  else (opHeaderStage op args client0 o).miss

/-- `filteredMissing`: the missing inputs excluding the `api_token` name. -/
def opFilteredMissing (op : Operation) (args : JValue) (client0 : ClientState)
    (o : Oracle) : List MissingInput :=
  (opMissingInputs op args client0 o).filter (fun mi => mi.name ≠ "api_token")

/-- The final request URL (placeholder substitution plus trailing-slash
restore). -/
def opFinalUrl (op : Operation) (args : JValue) : String :=
  restoreTrailingSlash op.pathHasTrailingSlash (opUrlStage op args).fst

/-- Dispatch of a resolved operation: URL, query, header and body
construction, the elicitation short-circuit (filtering out `api_token`),
security resolution, the Basic-credential configuration check, and the
single upstream request. -/
def dispatchOp (srv : ServerState) (op : Operation) (args : JValue)
    (client0 : ClientState) (o : Oracle) : DispatchResult :=
  let hst := opHeaderStage op args client0 o
  let filteredMissing := opFilteredMissing op args client0 o
  if ¬ filteredMissing.isEmpty then
    ⟨.elicitation (filteredMissing.map (fun mi => ⟨mi.name, mi.description, mi.schema⟩)),
      hst.client, 0, hst.fetches, none⟩
  else
    let ast := resolveAuth srv.openApi op (opArgsOrEmpty args) hst.headers hst.client o
    match ast.result with
    | .error msg =>
      ⟨catchToolError (some op) msg, ast.client, ast.exchanges, hst.fetches, none⟩
    | .ok (headers2, useBasicAuth) =>
      if useBasicAuth ∧ (ast.client.username = "" ∨ ast.client.password = "") then
        ⟨catchToolError (some op)
          "SCANPOWER_USERNAME and SCANPOWER_PASSWORD are required for basic authentication",
          ast.client, ast.exchanges, hst.fetches, none⟩
      else
        let req : HttpRequest :=
          ⟨op.method, opFinalUrl op args,
            (if (opQueryStage op args).fst.isEmpty then none else some (opQueryStage op args).fst),
            jget (opArgsOrEmpty args) "body", headers2,
            if useBasicAuth then some (ast.client.username, ast.client.password) else none⟩
        match o.upstream with
        | .error msg =>
          ⟨catchToolError (some op) msg, ast.client, ast.exchanges, hst.fetches, some req⟩
        | .ok payload =>
          ⟨.success payload, ast.client, ast.exchanges, hst.fetches, some req⟩

/-- The client state after the immediate `proxy_user_id` session update. -/
def postProxyClient (srv : ServerState) (args : JValue) : ClientState :=
  match proxyUpdateValue args with
  | some pid => { srv.client with proxyUserId := some pid }
  | none => srv.client

/-- The `CallToolRequestSchema` handler: not-ready guard, the immediate
`proxy_user_id` session update with its `getProxyUsers` short-circuit, the
operation lookup whose failure throws `Unknown tool: <name>` into the catch
block (where `op` is still null), and full dispatch otherwise. -/
def callToolHandler (srv : ServerState) (name : String) (args : JValue)
    (o : Oracle) : DispatchResult :=
  if srv.isReady = false then
    ⟨.notReady, srv.client, 0, 0, none⟩
  else
    let client0 := postProxyClient srv args
    if (proxyUpdateValue args).isSome ∧ name = "getProxyUsers" then
      ⟨.proxyConfirmation ((proxyUpdateValue args).getD ""), client0, 0, 0, none⟩
    else
      match srv.operationMap.lookup name with
      | none => ⟨catchToolError none ("Unknown tool: " ++ name), client0, 0, 0, none⟩
      | some op => dispatchOp srv op args client0 o

/-- Generic association update with `Map.set` semantics (existing key keeps
its position, fresh key appended). -/
def setAssoc {α : Type} : List (String × α) → String → α → List (String × α)
  | [], k, v => [(k, v)]
  | (k1, v1) :: rest, k, v =>
    if k1 = k then (k, v) :: rest else (k1, v1) :: setAssoc rest k v

/-- Field assignment on an object value. -/
def jsetField (v : JValue) (k : String) (val : JValue) : JValue :=
  match v with
  | .vObj fields => .vObj (jsetKey fields k val)
  | other => other

/-- ASCII alphanumeric test for the operation-id sanitizer's character
class `[^a-zA-Z0-9]`. -/
def isAlnumAscii (c : Char) : Bool :=
  (decide ('A' ≤ c) && decide (c ≤ 'Z')) ||
  (decide ('a' ≤ c) && decide (c ≤ 'z')) ||
  (decide ('0' ≤ c) && decide (c ≤ '9'))

/-- Collapse runs of consecutive underscores to a single one. -/
def squeezeUnderscores : List Char → List Char
  | [] => []
  | [c] => [c]
  | c :: c2 :: rest =>
    if c = '_' ∧ c2 = '_' then squeezeUnderscores (c2 :: rest)
    else c :: squeezeUnderscores (c2 :: rest)

/-- `pathKey.replace(/[^a-zA-Z0-9]+/g, '_')`: every maximal run of
non-alphanumeric characters becomes one underscore. -/
def sanitizePathKey (s : String) : String :=
  String.mk (squeezeUnderscores (s.toList.map (fun c => if isAlnumAscii c then c else '_')))

/-- `$ref` resolution: strip the leading `#/`, split on `/`, and walk the
pointer through the document root with optional member accesses; a falsy
resolution falls back to the unresolved parameter object. -/
def resolveRef (openApi : JValue) (p : JValue) : JValue :=
  if jTruthy (jget p "$ref") then
    let refPath := (jsReplaceFirst (jToString (jget p "$ref")) "#/" "").splitOn "/"
    jOr (refPath.foldl (fun acc part => jget acc part) openApi) p
  else p

/-- The advertised query-parameter schema (union of accepted shapes). -/
def queryTypeUnion : JValue :=
  .vObj [("type", .vArr [.vStr "string", .vStr "number", .vStr "boolean",
    .vStr "array", .vStr "object"])]

/-- The advertised body schema union. -/
def bodyTypeUnion : JValue :=
  .vObj [("type", .vArr [.vStr "object", .vStr "array", .vStr "string",
    .vStr "number", .vStr "boolean", .vStr "null"])]

/-- Compilation of one path × method pair into a Tool Descriptor and an
Operation Descriptor, or `none` when the path item has no such method.
Parameter names, operation ids and descriptions are strings in any
well-formed document; the model coerces them with `String(...)` where the
source relies on that implicitly. -/
def compileOperation (openApi : JValue) (pathKey : String) (pathItem : JValue)
    (m : String) : Option (Tool × String × Operation) :=
  let opJ := jget pathItem m
  if ¬ jTruthy opJ then none
  else
    let operationId :=
      if jTruthy (jget opJ "operationId") then jToString (jget opJ "operationId")
      else m ++ "_" ++ sanitizePathKey pathKey
    let description :=
      jToString (jOr (jget opJ "summary") (jOr (jget opJ "description")
        (.vStr (jsToUpper m ++ " " ++ pathKey))))
    let rawParams := jElems (jOr (jget pathItem "parameters") (.vArr [])) ++
      jElems (jOr (jget opJ "parameters") (.vArr []))
    let params := rawParams.map (resolveRef openApi)
    let pathDefs := params.filter (fun p => jIsStr (jget p "in") "path")
    let queryDefs := params.filter (fun p => jIsStr (jget p "in") "query")
    let headerDefs := params.filter (fun p => jIsStr (jget p "in") "header")
    let pathParams := pathDefs.map (fun p => jToString (jget p "name"))
    let queryParams := queryDefs.map (fun p => jToString (jget p "name"))
    let headerParams := headerDefs.map (fun p => jToString (jget p "name"))
    let props0 := pathParams.foldl
      (fun acc p => jsetKey acc (sanitizeName p) (.vObj [("type", .vStr "string")])) []
    let props1 := queryParams.foldl
      (fun acc q => jsetKey acc (sanitizeName q) queryTypeUnion) props0
    let props2 := headerParams.foldl
      (fun acc h => jsetKey acc (sanitizeName h) (.vObj [("type", .vStr "string")])) props1
    let contentV := jget (jget opJ "requestBody") "content"
    let requiresBody := jTruthy (jget opJ "requestBody") && jTruthy contentV &&
      (jKeys contentV).contains "application/json"
    let bodySchema :=
      if requiresBody then jget (jget contentV "application/json") "schema" else .vUndefined
    let props3 := if requiresBody then jsetKey props2 "body" bodyTypeUnion else props2
    let props4 := jsetKey props3 "api_token"
      (.vObj [("type", .vStr "string"),
        ("description", .vStr "Optional token for bearer/apiKey auth")])
    let required := pathParams.map sanitizeName
    let inputSchema := JValue.vObj
      ([("type", .vStr "object"), ("properties", .vObj props4)] ++
        (if required.isEmpty then [] else [("required", .vArr (required.map .vStr))]))
    let flag0 := pathKey ≠ "" ∧ jsEndsWith pathKey "/"
    let flag :=
      if ¬ flag0 ∧ pathKey = "/account" ∧ operationId = "getProxyUsers" then true
      else flag0
    some (⟨operationId, description, inputSchema⟩, operationId,
      ⟨jsToUpper m, pathKey, flag, pathParams, queryParams, headerParams,
        pathDefs, queryDefs, headerDefs,
        jOr (jget opJ "security") (jOr (jget openApi "security") (.vArr [])),
        requiresBody, bodySchema⟩)

/-- The HTTP methods the compiler scans under every path item. -/
def compiledMethods : List String := ["get", "post", "put", "delete", "patch"]

/-- `generateFromCurrentOpenApi`: with a null document, the tables are
cleared and readiness is left untouched; otherwise the configured base URL
overrides `servers`, every path × method pair is compiled into the tool
list and operation table, and the readiness flag is set. -/
def generateFromCurrentOpenApi (srv : ServerState) : ServerState :=
  if ¬ jTruthy srv.openApi then
    { srv with generatedTools := [], operationMap := [] }
  else
    let openApi1 :=
      if srv.client.baseUrl ≠ "" then
        jsetField srv.openApi "servers" (.vArr [.vObj [("url", .vStr srv.client.baseUrl)]])
      else srv.openApi
    let pathsV := jOr (jget openApi1 "paths") (.vObj [])
    let tables := (jKeys pathsV).foldl
      (fun (acc : List Tool × List (String × Operation)) pathKey =>
        let pathItem := jOr (jget pathsV pathKey) (.vObj [])
        compiledMethods.foldl
          (fun acc2 m =>
            match compileOperation openApi1 pathKey pathItem m with
            | none => acc2
            | some (tool, key, op) => (acc2.fst ++ [tool], setAssoc acc2.snd key op))
          acc)
      ([], [])
    { srv with
      openApi := openApi1
      generatedTools := tables.fst
      operationMap := tables.snd
      isReady := true }

/-- Does the spec source match `/^https?:\/\//i`? -/
def isHttpUrlSource (s : String) : Bool :=
  jsStartsWith (jsToLower s) "http://" || jsStartsWith (jsToLower s) "https://"

/-- Does the spec source match `/^blob:https?:\/\//i`? -/
def isBlobUrlSource (s : String) : Bool :=
  jsStartsWith (jsToLower s) "blob:http://" || jsStartsWith (jsToLower s) "blob:https://"

/-- `loadOpenApiAndGenerateTools`.  `specSource` is the
`SCANPOWER_OPENAPI_SPEC` environment value.  `fetch` models the spec
download: the outer `Except` is the HTTP fetch, the inner one the parse of
the body (after the trailing-comma repair, when the body arrived as text).
Only URL sources are handled: a blob URL short-circuits to the empty,
ready state without a fetch; an http(s) URL is fetched and parsed, and the
readiness flag is set whatever the outcome.  There is no branch for any
other source — a filesystem path (or an unset variable) returns with the
server untouched and the readiness flag never set.  The returned boolean
records whether a fetch was attempted. -/
def loadOpenApiAndGenerateTools (srv : ServerState) (specSource : Option String)
    (fetch : Except String (Except String JValue)) : ServerState × Bool :=
  match specSource with
  | some s =>
    if s ≠ "" ∧ (isHttpUrlSource s ∨ isBlobUrlSource s) then
      let srv1 := { srv with
        openApi := JValue.vNull
        generatedTools := []
        operationMap := [] }
      if isBlobUrlSource s then ({ srv1 with isReady := true }, false)
      else
        match fetch with
        | .error _ => ({ srv1 with isReady := true }, true)
        | .ok (.error _) => ({ srv1 with isReady := true }, true)
        | .ok (.ok doc) => (generateFromCurrentOpenApi { srv1 with openApi := doc }, true)
    else (srv, false)
  | none => (srv, false)

/-! ## Path-template structure

To reason about placeholder substitution, a path template is viewed as a
list of segments: literal text interleaved with `\x7bname\x7d` placeholders.
`renderTemplate` recovers the string form, substituting the values of a
fill table for the placeholders it covers; with an empty fill it is exactly
the raw template. -/

/-- One segment of a path template. -/
inductive Seg where
  | lit (s : String)
  | param (name : String)

/-- Render one segment under a fill table. -/
def renderSeg (fill : List (String × String)) : Seg → String
  | .lit s => s
  | .param n =>
    match List.lookup n fill with
    | some v => v
    | none => mkPlaceholder n

/-- Render a segment list under a fill table. -/
def renderTemplate (fill : List (String × String)) : List Seg → String
  | [] => ""
  | sg :: rest => renderSeg fill sg ++ renderTemplate fill rest

/-- The placeholder names of a template, in order of appearance. -/
def segParams : List Seg → List String
  | [] => []
  | .lit _ :: rest => segParams rest
  | .param n :: rest => n :: segParams rest

/-- No brace character occurs in the string. -/
def braceFree (s : String) : Bool :=
  s.toList.all (fun c => decide (c ≠ braceOpen) && decide (c ≠ braceClose))

/-- Well-formedness of one segment: literals and parameter names are
brace-free. -/
def segWF : Seg → Bool
  | .lit s => braceFree s
  | .param n => braceFree n

/-! ## Concrete fixtures used by the witnesses and counterexamples -/

/-- A configured client with no cached tokens. -/
def initClient : ClientState :=
  ⟨"https://api.scanpower.example", "user", "pw", none, .vNull, .vNull⟩

/-- A security-scheme registry declaring the upstream's bearer and basic
schemes. -/
def sampleSchemes : JValue :=
  .vObj [("components", .vObj [("securitySchemes", .vObj
    [("bearer_auth", .vObj [("type", .vStr "http"), ("scheme", .vStr "bearer")]),
     ("basic_auth", .vObj [("type", .vStr "http"), ("scheme", .vStr "basic")])])])]

/-- A security list selecting `bearer_auth`. -/
def bearerSecurity : JValue := .vArr [.vObj [("bearer_auth", .vArr [])]]

/-- A security list selecting `basic_auth`. -/
def basicSecurity : JValue := .vArr [.vObj [("basic_auth", .vArr [])]]

/-- The parameter definition of the `\x7bid\x7d` path parameter. -/
def widgetIdDef : JValue :=
  .vObj [("name", .vStr "id"), ("in", .vStr "path"), ("required", .vBool true),
    ("description", .vStr "Widget id"), ("schema", .vObj [("type", .vStr "string")])]

/-- A compiled operation with one path parameter and bearer security. -/
def opWidget : Operation :=
  ⟨"GET", "/widgets/{id}", false, ["id"], [], [], [widgetIdDef], [], [],
    bearerSecurity, false, .vUndefined⟩

/-- A required query parameter definition. -/
def searchQDef : JValue :=
  .vObj [("name", .vStr "q"), ("in", .vStr "query"), ("required", .vBool true),
    ("description", .vStr "Search keywords"), ("schema", .vObj [("type", .vStr "string")])]

/-- The `x-access-token` header parameter definition. -/
def xAccessTokenDef : JValue :=
  .vObj [("name", .vStr "x-access-token"), ("in", .vStr "header"),
    ("required", .vBool true), ("description", .vStr "Amazon access token"),
    ("schema", .vObj [("type", .vStr "string")])]

/-- A compiled operation with a required query parameter and the special
`x-access-token` header, and no security requirement. -/
def opSearch : Operation :=
  ⟨"GET", "/search", false, [], ["q"], ["x-access-token"], [], [searchQDef],
    [xAccessTokenDef], .vArr [], false, .vUndefined⟩

/-- A compiled operation guarded by HTTP Basic. -/
def opToken : Operation :=
  ⟨"GET", "/api/v2/token", false, [], [], [], [], [], [], basicSecurity, false, .vUndefined⟩

/-- A compiled operation whose single path parameter is literally named
`api_token` (the name the elicitation filter excludes). -/
def opLeak : Operation :=
  ⟨"GET", "/t/{api_token}", false, ["api_token"], [], [],
    [.vObj [("name", .vStr "api_token"), ("in", .vStr "path"),
      ("required", .vBool true)]], [], [], .vArr [], false, .vUndefined⟩

/-- A ready server exposing the fixture operations. -/
def mainServer : ServerState :=
  ⟨true, sampleSchemes,
    [("getWidget", opWidget), ("searchCatalogItems", opSearch),
     ("getApiToken", opToken), ("getT", opLeak)],
    [], initClient⟩

/-- An oracle where every exchange succeeds. -/
def okOracle : Oracle :=
  ⟨.ok (.vStr "tok123"), .ok (.vStr "amz456"), .ok (.vStr "payload")⟩

/-- The segment view of `opWidget`'s template. -/
def widgetSegs : List Seg := [.lit "/widgets/", .param "id"]

/-- A small OpenAPI document exercising the compiler: the special-cased
`/account` + `getProxyUsers` pair, a template with an explicit trailing
slash, and a parameterised template. -/
def sampleDoc : JValue :=
  .vObj [
    ("openapi", .vStr "3.0.0"),
    ("paths", .vObj [
      ("/account", .vObj [("get", .vObj [
        ("operationId", .vStr "getProxyUsers"),
        ("summary", .vStr "List proxy users")])]),
      ("/things/", .vObj [("get", .vObj [
        ("operationId", .vStr "listThings")])]),
      ("/widgets/{id}", .vObj [("get", .vObj [
        ("operationId", .vStr "getWidgetById"),
        ("parameters", .vArr [widgetIdDef])])])])]

/-- A freshly booted, not-yet-ready server holding the sample document. -/
def srvSeed : ServerState := ⟨false, sampleDoc, [], [], initClient⟩

/-- The server after the generation pass over the sample document. -/
def genServer : ServerState := generateFromCurrentOpenApi srvSeed

/-- Fallback Operation Descriptor for total lookups in fixtures. -/
def defaultOperation : Operation :=
  ⟨"", "", false, [], [], [], [], [], [], .vUndefined, false, .vUndefined⟩

/-- The compiled `getProxyUsers` operation of the sample document. -/
def gpOp : Operation :=
  (genServer.operationMap.lookup "getProxyUsers").getD defaultOperation

/-- A freshly booted server with no document at all. -/
def notReadySeed : ServerState := ⟨false, .vNull, [], [], initClient⟩

-- compiler fixture probes
example : renderTemplate [] widgetSegs = opWidget.path := rfl
example : genServer.operationMap.lookup "getProxyUsers" = some gpOp := rfl
example : gpOp.path = "/account" ∧ gpOp.pathHasTrailingSlash = true ∧ gpOp.pathParams = [] :=
  ⟨rfl, rfl, rfl⟩
example :
    (callToolHandler genServer "getProxyUsers" (.vObj []) okOracle).issued =
      some ⟨"GET", "/account/", none, .vUndefined, [], none⟩ := rfl
example :
    (loadOpenApiAndGenerateTools notReadySeed (some "./openapi.json")
      (.ok (.ok sampleDoc))).fst.isReady = false := rfl

example :
    (callToolHandler mainServer "getWidget"
      (.vObj [("id", .vStr "abc 123"), ("api_token", .vStr "T")]) okOracle).issued =
      some ⟨"GET", "/widgets/abc%20123", none, .vUndefined,
        [("Authorization", .vStr "Bearer T")], none⟩ := rfl

-- C3 probes
example :
    (callToolHandler mainServer "getWidget" (.vObj [("id", .vStr "7")]) okOracle).authExchanges
      = 1 := rfl
example :
    (callToolHandler mainServer "getWidget" (.vObj [("id", .vStr "7")]) okOracle).client.apiToken
      = .vStr "tok123" := rfl
example :
    (callToolHandler mainServer "getWidget" (.vObj [("id", .vStr "7")]) okOracle).issued =
      some ⟨"GET", "/widgets/7", none, .vUndefined, [("Authorization", .vStr "Bearer tok123")], none⟩ := rfl
example :
    (callToolHandler { mainServer with client := { initClient with apiToken := .vStr "C" } }
      "getWidget" (.vObj [("id", .vStr "7")]) okOracle).authExchanges = 0 := rfl
example :
    (callToolHandler mainServer "getWidget" (.vObj [("id", .vStr "7")])
      ⟨.ok .vNull, .ok .vNull, .ok .vNull⟩).outcome =
      .errorResult "Error: Missing bearer token (api_token)" := rfl

-- C4 probe
example :
    (callToolHandler mainServer "getApiToken" (.vObj [("api_token", .vStr "T")]) okOracle).issued =
      some ⟨"GET", "/api/v2/token", none, .vUndefined, [], some ("user", "pw")⟩ := rfl

-- C5 probe
example :
    (callToolHandler mainServer "nosuchtool" (.vObj []) okOracle).outcome =
      .handlerException "TypeError: Cannot read properties of null (reading method)" := rfl

-- C1 probe: missing path parameter named api_token leaks its placeholder
example :
    (callToolHandler mainServer "getT" (.vObj []) okOracle).issued =
      some ⟨"GET", "/t/{api_token}", none, .vUndefined, [], none⟩ := rfl

-- C2 probe: missing required query parameter elicits; header fetch already ran
example :
    (callToolHandler mainServer "searchCatalogItems" (.vObj []) okOracle).outcome =
      .elicitation [⟨"q", .vStr "Search keywords", .vObj [("type", .vStr "string")]⟩] := rfl
example :
    (callToolHandler mainServer "searchCatalogItems" (.vObj []) okOracle).issued = none := rfl

-- C7 probes
example :
    (callToolHandler mainServer "searchCatalogItems" (.vObj [("q", .vStr "laptop")])
      okOracle).issued =
      some ⟨"GET", "/search", some [("q", .vStr "laptop")], .vUndefined,
        [("x-access-token", .vStr "amz456")], none⟩ := rfl
example :
    (callToolHandler mainServer "searchCatalogItems" (.vObj [("q", .vStr "laptop")])
      ⟨.ok .vNull, .error "boom", .ok .vNull⟩).issued =
      some ⟨"GET", "/search", some [("q", .vStr "laptop")], .vUndefined,
        [("x-access-token", .vNull)], none⟩ := rfl
example :
    (callToolHandler mainServer "searchCatalogItems" (.vObj [("q", .vStr "laptop")])
      ⟨.ok .vNull, .error "boom", .ok .vNull⟩).amazonFetches = 1 := rfl

-- C8 probes
example :
    (callToolHandler mainServer "getProxyUsers"
      (.vObj [("proxy_user_id", .vStr " abc ")]) okOracle).outcome =
      .proxyConfirmation "abc" := rfl
example :
    (callToolHandler mainServer "getProxyUsers"
      (.vObj [("proxy_user_id", .vStr " abc ")]) okOracle).client.proxyUserId =
      some "abc" := rfl

-- C10 probe
example :
    (callToolHandler mainServer "nosuchtool"
      (.vObj [("proxy_user_id", .vStr "p1")]) okOracle).client.proxyUserId = some "p1" := rfl

/-! ## Helper lemmas -/

theorem lookup_cons_ne {β : Type} (k k1 : String) (v : β) (rest : List (String × β))
    (h : k ≠ k1) : List.lookup k ((k1, v) :: rest) = List.lookup k rest := by
  simp [List.lookup_cons, beq_eq_false_iff_ne.mpr h]

theorem jsetKey_cons_pos (k k1 : String) (v v1 : JValue) (rest : List (String × JValue))
    (h : k1 = k) : jsetKey ((k1, v1) :: rest) k v = (k, v) :: rest := by
  simp [jsetKey, h]

theorem jsetKey_cons_neg (k k1 : String) (v v1 : JValue) (rest : List (String × JValue))
    (h : ¬ k1 = k) : jsetKey ((k1, v1) :: rest) k v = (k1, v1) :: jsetKey rest k v := by
  simp [jsetKey, h]

theorem jdelKey_cons_self (k : String) (v1 : JValue) (rest : List (String × JValue)) :
    jdelKey ((k, v1) :: rest) k = jdelKey rest k := by
  simp [jdelKey]

theorem jdelKey_cons_ne (k k1 : String) (v1 : JValue) (rest : List (String × JValue))
    (h : k1 ≠ k) : jdelKey ((k1, v1) :: rest) k = (k1, v1) :: jdelKey rest k := by
  simp [jdelKey, h]

theorem lookupKey_jsetKey_self (fields : List (String × JValue)) (k : String) (v : JValue) :
    lookupKey (jsetKey fields k v) k = some v := by
  induction fields with
  | nil => simp [jsetKey, lookupKey]
  | cons kv rest ih =>
    obtain ⟨k1, v1⟩ := kv
    by_cases h : k1 = k
    · rw [jsetKey_cons_pos k k1 v v1 rest h]
      simp [lookupKey]
    · rw [jsetKey_cons_neg k k1 v v1 rest h]
      simp only [lookupKey] at ih ⊢
      rw [lookup_cons_ne k k1 v1 _ (Ne.symm h)]
      exact ih

theorem lookupKey_jsetKey_ne (fields : List (String × JValue)) (k k2 : String) (v : JValue)
    (hne : k2 ≠ k) : lookupKey (jsetKey fields k v) k2 = lookupKey fields k2 := by
  induction fields with
  | nil =>
    simp only [jsetKey, lookupKey]
    rw [lookup_cons_ne k2 k v _ hne]
  | cons kv rest ih =>
    obtain ⟨k1, v1⟩ := kv
    by_cases h : k1 = k
    · rw [jsetKey_cons_pos k k1 v v1 rest h]
      simp only [lookupKey]
      rw [lookup_cons_ne k2 k v rest hne, lookup_cons_ne k2 k1 v1 rest (h ▸ hne)]
    · rw [jsetKey_cons_neg k k1 v v1 rest h]
      simp only [lookupKey] at ih ⊢
      by_cases h2 : k2 = k1
      · subst h2
        simp
      · rw [lookup_cons_ne k2 k1 v1 _ h2, lookup_cons_ne k2 k1 v1 _ h2]
        exact ih

theorem lookupKey_jdelKey_self (fields : List (String × JValue)) (k : String) :
    lookupKey (jdelKey fields k) k = none := by
  induction fields with
  | nil => simp [jdelKey, lookupKey]
  | cons kv rest ih =>
    obtain ⟨k1, v1⟩ := kv
    by_cases h : k1 = k
    · subst h
      rw [jdelKey_cons_self]
      exact ih
    · rw [jdelKey_cons_ne k k1 v1 rest h]
      simp only [lookupKey] at ih ⊢
      rw [lookup_cons_ne k k1 v1 _ (Ne.symm h)]
      exact ih

theorem lookupKey_jdelKey_ne (fields : List (String × JValue)) (k k2 : String)
    (hne : k2 ≠ k) : lookupKey (jdelKey fields k) k2 = lookupKey fields k2 := by
  induction fields with
  | nil => simp [jdelKey, lookupKey]
  | cons kv rest ih =>
    obtain ⟨k1, v1⟩ := kv
    by_cases h : k1 = k
    · subst h
      rw [jdelKey_cons_self]
      simp only [lookupKey] at ih ⊢
      rw [lookup_cons_ne k2 k1 v1 rest hne]
      exact ih
    · rw [jdelKey_cons_ne k k1 v1 rest h]
      simp only [lookupKey] at ih ⊢
      by_cases h2 : k2 = k1
      · subst h2
        simp
      · rw [lookup_cons_ne k2 k1 v1 _ h2, lookup_cons_ne k2 k1 v1 _ h2]
        exact ih

/-- An argument value read as a string implies the argument object is
truthy. -/
theorem jget_vStr_truthy (args : JValue) (k s : String)
    (h : jget args k = .vStr s) : jTruthy args = true := by
  cases args <;> simp [jget, jTruthy] at h ⊢

/-- The proxy-update guard passes exactly on a string argument with
non-empty trim. -/
theorem proxyUpdateValue_eq (args : JValue) (s : String)
    (h : jget args "proxy_user_id" = .vStr s) (hne : jsTrim s ≠ "") :
    proxyUpdateValue args = some (jsTrim s) := by
  have ht := jget_vStr_truthy args "proxy_user_id" s h
  simp [proxyUpdateValue, ht, h, hne]

/-- One header iteration only ever touches the cached Amazon token (and
counters), never the rest of the client state. -/
theorem buildHeaderStep_client (args : JValue) (defs : List JValue) (o : Oracle)
    (h : String) (st : HeaderStage) :
    ∃ t, (buildHeaderStep args defs o h st).client =
      { st.client with amazonAccessToken := t } := by
  simp only [buildHeaderStep]
  repeat' split
  all_goals exact ⟨_, rfl⟩

/-- The header stage only ever touches the cached Amazon token of the
client state. -/
theorem buildHeaders_client (args : JValue) (defs : List JValue) (o : Oracle) :
    ∀ (hs : List String) (st : HeaderStage),
      ∃ t, (buildHeaders args defs o hs st).client =
        { st.client with amazonAccessToken := t } := by
  intro hs
  induction hs with
  | nil => exact fun st => ⟨st.client.amazonAccessToken, rfl⟩
  | cons h rest ih =>
    intro st
    obtain ⟨t1, ht1⟩ := buildHeaderStep_client args defs o h st
    obtain ⟨t2, ht2⟩ := ih (buildHeaderStep args defs o h st)
    refine ⟨t2, ?_⟩
    rw [buildHeaders, ht2, ht1]

/-- The security stage only ever touches the cached API token of the
client state. -/
theorem resolveAuth_client (openApi : JValue) (op : Operation) (args : JValue)
    (headers : List (String × JValue)) (client : ClientState) (o : Oracle) :
    ∃ t, (resolveAuth openApi op args headers client o).client =
      { client with apiToken := t } := by
  simp only [resolveAuth, authenticate]
  repeat' split
  all_goals exact ⟨_, rfl⟩

/-- The header stage starting from the dispatch entry state. -/
theorem opHeaderStage_client (op : Operation) (args : JValue) (client0 : ClientState)
    (o : Oracle) :
    ∃ t, (opHeaderStage op args client0 o).client =
      { client0 with amazonAccessToken := t } :=
  buildHeaders_client (opArgsOrEmpty args) op.headerParamDefs o op.headerParams
    ⟨[], (opQueryStage op args).snd, client0, 0⟩

/-- A dispatched operation only ever touches the two cached tokens of the
client state. -/
theorem dispatchOp_client (srv : ServerState) (op : Operation) (args : JValue)
    (client0 : ClientState) (o : Oracle) :
    ∃ t u, (dispatchOp srv op args client0 o).client =
      { client0 with apiToken := u, amazonAccessToken := t } := by
  obtain ⟨t, ht⟩ := opHeaderStage_client op args client0 o
  obtain ⟨u, hu⟩ := resolveAuth_client srv.openApi op (opArgsOrEmpty args)
    (opHeaderStage op args client0 o).headers (opHeaderStage op args client0 o).client o
  simp only [dispatchOp]
  split
  · exact ⟨t, client0.apiToken, by rw [ht]⟩
  · split
    · exact ⟨t, u, by rw [hu, ht]⟩
    · split
      · exact ⟨t, u, by rw [hu, ht]⟩
      · split
        · exact ⟨t, u, by rw [hu, ht]⟩
        · exact ⟨t, u, by rw [hu, ht]⟩

/-- The proxy update never touches anything but the delegated-user field. -/
theorem postProxyClient_fields (srv : ServerState) (args : JValue) :
    (postProxyClient srv args).username = srv.client.username ∧
    (postProxyClient srv args).password = srv.client.password ∧
    (postProxyClient srv args).apiToken = srv.client.apiToken ∧
    (postProxyClient srv args).amazonAccessToken = srv.client.amazonAccessToken := by
  simp only [postProxyClient]
  split <;> exact ⟨rfl, rfl, rfl, rfl⟩

/-- Under the ready flag, outside the proxy short-circuit and with a
resolvable tool name, the handler is exactly `dispatchOp`. -/
theorem callToolHandler_eq_dispatchOp (srv : ServerState) (name : String)
    (args : JValue) (o : Oracle) (op : Operation)
    (h_ready : srv.isReady = true)
    (h_nosc : ¬ ((proxyUpdateValue args).isSome ∧ name = "getProxyUsers"))
    (h_lookup : srv.operationMap.lookup name = some op) :
    callToolHandler srv name args o = dispatchOp srv op args (postProxyClient srv args) o := by
  simp only [callToolHandler]
  rw [if_neg (by simp [h_ready]), if_neg h_nosc, h_lookup]

/-- The security stage under a first requirement group containing a
basic-style scheme. -/
theorem resolveAuth_basic (openApi : JValue) (op : Operation) (args : JValue)
    (headers : List (String × JValue)) (client : ClientState) (o : Oracle)
    (req0 : JValue) (rest : List JValue)
    (h_sec : op.security = .vArr (req0 :: rest))
    (h_basic : (jKeys req0).any (isBasicSchemeName openApi) = true) :
    resolveAuth openApi op args headers client o =
      ⟨.ok (jdelKey headers "Authorization", true), client, 0⟩ := by
  simp [resolveAuth, h_sec, h_basic]

/-- The security stage with a bearer scheme and a truthy caller token. -/
theorem resolveAuth_bearer_arg (openApi : JValue) (op : Operation) (args : JValue)
    (headers : List (String × JValue)) (client : ClientState) (o : Oracle)
    (req0 : JValue) (rest : List JValue) (sn : String)
    (h_sec : op.security = .vArr (req0 :: rest))
    (h_nobasic : (jKeys req0).any (isBasicSchemeName openApi) = false)
    (h_bearer : (jKeys req0).find? (isBearerSchemeName openApi) = some sn)
    (h_arg : jTruthy (jget args "api_token") = true) :
    resolveAuth openApi op args headers client o =
      ⟨.ok (jsetKey headers "Authorization"
          (.vStr ("Bearer " ++ jToString (jget args "api_token"))), false), client, 0⟩ := by
  simp [resolveAuth, jOr, h_sec, h_nobasic, h_bearer, h_arg]

/-- The security stage with a bearer scheme, no caller token and a truthy
cached token. -/
theorem resolveAuth_bearer_cached (openApi : JValue) (op : Operation) (args : JValue)
    (headers : List (String × JValue)) (client : ClientState) (o : Oracle)
    (req0 : JValue) (rest : List JValue) (sn : String)
    (h_sec : op.security = .vArr (req0 :: rest))
    (h_nobasic : (jKeys req0).any (isBasicSchemeName openApi) = false)
    (h_bearer : (jKeys req0).find? (isBearerSchemeName openApi) = some sn)
    (h_arg : jTruthy (jget args "api_token") = false)
    (h_cached : jTruthy client.apiToken = true) :
    resolveAuth openApi op args headers client o =
      ⟨.ok (jsetKey headers "Authorization"
          (.vStr ("Bearer " ++ jToString client.apiToken)), false), client, 0⟩ := by
  simp [resolveAuth, jOr, h_sec, h_nobasic, h_bearer, h_arg, h_cached]

/-- The security stage with a bearer scheme and no resolvable token: one
authentication exchange mints and caches a token, which is then used. -/
theorem resolveAuth_bearer_mint_ok (openApi : JValue) (op : Operation) (args : JValue)
    (headers : List (String × JValue)) (client : ClientState) (o : Oracle)
    (req0 : JValue) (rest : List JValue) (sn : String) (t : JValue)
    (h_sec : op.security = .vArr (req0 :: rest))
    (h_nobasic : (jKeys req0).any (isBasicSchemeName openApi) = false)
    (h_bearer : (jKeys req0).find? (isBearerSchemeName openApi) = some sn)
    (h_arg : jTruthy (jget args "api_token") = false)
    (h_cached : jTruthy client.apiToken = false)
    (h_tok : o.tokenFetch = .ok t)
    (h_t : jTruthy t = true) :
    resolveAuth openApi op args headers client o =
      ⟨.ok (jsetKey headers "Authorization"
          (.vStr ("Bearer " ++ jToString t)), false), { client with apiToken := t }, 1⟩ := by
  simp [resolveAuth, authenticate, jOr, h_sec, h_nobasic, h_bearer, h_arg, h_cached, h_tok, h_t]

/-- The security stage when the minted token is itself falsy: the hard
missing-bearer-token error, after exactly one exchange. -/
theorem resolveAuth_bearer_mint_falsy (openApi : JValue) (op : Operation) (args : JValue)
    (headers : List (String × JValue)) (client : ClientState) (o : Oracle)
    (req0 : JValue) (rest : List JValue) (sn : String) (t : JValue)
    (h_sec : op.security = .vArr (req0 :: rest))
    (h_nobasic : (jKeys req0).any (isBasicSchemeName openApi) = false)
    (h_bearer : (jKeys req0).find? (isBearerSchemeName openApi) = some sn)
    (h_arg : jTruthy (jget args "api_token") = false)
    (h_cached : jTruthy client.apiToken = false)
    (h_tok : o.tokenFetch = .ok t)
    (h_t : jTruthy t = false) :
    resolveAuth openApi op args headers client o =
      ⟨.error "Missing bearer token (api_token)", { client with apiToken := t }, 1⟩ := by
  simp [resolveAuth, authenticate, jOr, h_sec, h_nobasic, h_bearer, h_arg, h_cached, h_tok, h_t]

/-- The security stage when the exchange itself fails: the wrapped
authentication error, after exactly one exchange. -/
theorem resolveAuth_bearer_mint_err (openApi : JValue) (op : Operation) (args : JValue)
    (headers : List (String × JValue)) (client : ClientState) (o : Oracle)
    (req0 : JValue) (rest : List JValue) (sn : String) (e : String)
    (h_sec : op.security = .vArr (req0 :: rest))
    (h_nobasic : (jKeys req0).any (isBasicSchemeName openApi) = false)
    (h_bearer : (jKeys req0).find? (isBearerSchemeName openApi) = some sn)
    (h_arg : jTruthy (jget args "api_token") = false)
    (h_cached : jTruthy client.apiToken = false)
    (h_tok : o.tokenFetch = .error e) :
    resolveAuth openApi op args headers client o =
      ⟨.error ("Authentication failed: " ++ e), client, 1⟩ := by
  simp [resolveAuth, authenticate, jOr, h_sec, h_nobasic, h_bearer, h_arg, h_cached, h_tok]

/-- Dispatch after a successful non-basic security resolution: the upstream
request is issued exactly once with the resolved headers. -/
theorem dispatchOp_ok_auth (srv : ServerState) (op : Operation) (args : JValue)
    (client0 : ClientState) (o : Oracle) (headers2 : List (String × JValue))
    (client1 : ClientState) (n : Nat)
    (h_nomiss : opFilteredMissing op args client0 o = [])
    (h_auth : resolveAuth srv.openApi op (opArgsOrEmpty args)
      (opHeaderStage op args client0 o).headers (opHeaderStage op args client0 o).client o =
      ⟨.ok (headers2, false), client1, n⟩) :
    dispatchOp srv op args client0 o =
      ⟨(match o.upstream with
        | .ok p => .success p
        | .error m => .errorResult ("Error: " ++ m)),
        client1, n, (opHeaderStage op args client0 o).fetches,
        some ⟨op.method, opFinalUrl op args,
          (if (opQueryStage op args).fst.isEmpty then none else some (opQueryStage op args).fst),
          jget (opArgsOrEmpty args) "body", headers2, none⟩⟩ := by
  simp only [dispatchOp, h_auth]
  rw [if_neg (by simp [h_nomiss]), if_neg (by simp)]
  cases o.upstream <;> rfl

/-- Dispatch after a failed security resolution: the thrown message becomes
an error-flagged result and no request is issued. -/
theorem dispatchOp_err_auth (srv : ServerState) (op : Operation) (args : JValue)
    (client0 : ClientState) (o : Oracle) (msg : String)
    (client1 : ClientState) (n : Nat)
    (h_nomiss : opFilteredMissing op args client0 o = [])
    (h_auth : resolveAuth srv.openApi op (opArgsOrEmpty args)
      (opHeaderStage op args client0 o).headers (opHeaderStage op args client0 o).client o =
      ⟨.error msg, client1, n⟩) :
    dispatchOp srv op args client0 o =
      ⟨.errorResult ("Error: " ++ msg), client1, n,
        (opHeaderStage op args client0 o).fetches, none⟩ := by
  simp only [dispatchOp, h_auth]
  rw [if_neg (by simp [h_nomiss])]
  rfl

/-- Dispatch with at least one non-`api_token` missing input: the
elicitation short-circuit, with no upstream request. -/
theorem dispatchOp_elicit (srv : ServerState) (op : Operation) (args : JValue)
    (client0 : ClientState) (o : Oracle) (mi : MissingInput) (ms : List MissingInput)
    (h_miss : opFilteredMissing op args client0 o = mi :: ms) :
    dispatchOp srv op args client0 o =
      ⟨.elicitation ((mi :: ms).map (fun m => ⟨m.name, m.description, m.schema⟩)),
        (opHeaderStage op args client0 o).client, 0,
        (opHeaderStage op args client0 o).fetches, none⟩ := by
  simp only [dispatchOp, h_miss]
  rw [if_pos (by simp)]

/-- Whatever branch dispatch takes, an issued request carries the final
substituted URL. -/
theorem dispatchOp_issued_url (srv : ServerState) (op : Operation) (args : JValue)
    (client0 : ClientState) (o : Oracle) :
    ∀ req, (dispatchOp srv op args client0 o).issued = some req →
      req.url = opFinalUrl op args := by
  simp only [dispatchOp]
  split
  · exact fun req h => Option.noConfusion h
  · split
    · exact fun req h => Option.noConfusion h
    · split
      · exact fun req h => Option.noConfusion h
      · split <;> (intro req h; injection h with h2; rw [← h2])

/-- The URL stage only appends to the missing-input accumulator. -/
theorem buildPath_miss_sub (args : JValue) (defs : List JValue) :
    ∀ (ps : List String) (url : String) (miss : List MissingInput) (mi : MissingInput),
      mi ∈ miss → mi ∈ (buildPath args defs ps url miss).snd := by
  intro ps
  induction ps with
  | nil => exact fun url miss mi h => h
  | cons p rest ih =>
    intro url miss mi h
    simp only [buildPath]
    split
    · exact ih _ _ mi (List.mem_append_left _ h)
    · exact ih _ _ mi h

/-- A declared path parameter with an `undefined` caller value lands in the
missing-input list under its sanitized name. -/
theorem buildPath_miss_mem (args : JValue) (defs : List JValue) :
    ∀ (ps : List String) (url : String) (miss : List MissingInput) (p : String),
      p ∈ ps →
      jIsUndefined (jCoalesce (jget args p) (jget args (sanitizeName p))) = true →
      ∃ mi, mi ∈ (buildPath args defs ps url miss).snd ∧
        mi.name = sanitizeName p ∧ mi.loc = "path" := by
  intro ps
  induction ps with
  | nil => exact fun url miss p h _ => absurd h (List.not_mem_nil p)
  | cons q rest ih =>
    intro url miss p hmem habs
    rcases List.mem_cons.mp hmem with heq | htail
    · subst heq
      have hstep : buildPath args defs (p :: rest) url miss =
          buildPath args defs rest url (miss ++
            [⟨sanitizeName p,
              jget (((defs.find? (fun pd => jIsStr (jget pd "name") p)).getD .vUndefined))
                "description", "path",
              jget (((defs.find? (fun pd => jIsStr (jget pd "name") p)).getD .vUndefined))
                "schema"⟩]) := by
        simp only [buildPath]
        rw [if_pos habs]
      rw [hstep]
      exact ⟨⟨sanitizeName p,
          jget (((defs.find? (fun pd => jIsStr (jget pd "name") p)).getD .vUndefined))
            "description", "path",
          jget (((defs.find? (fun pd => jIsStr (jget pd "name") p)).getD .vUndefined))
            "schema"⟩,
        buildPath_miss_sub args defs rest url _ _
          (List.mem_append_right _ (List.mem_singleton.mpr rfl)), rfl, rfl⟩
    · simp only [buildPath]
      split
      · exact ih _ _ p htail habs
      · exact ih _ _ p htail habs

/-- The query stage only appends to the missing-input accumulator. -/
theorem buildQuery_miss_sub (args : JValue) (defs : List JValue) :
    ∀ (qs : List String) (acc : List (String × JValue)) (miss : List MissingInput)
      (mi : MissingInput),
      mi ∈ miss → mi ∈ (buildQuery args defs qs acc miss).snd := by
  intro qs
  induction qs with
  | nil => exact fun acc miss mi h => h
  | cons q rest ih =>
    intro acc miss mi h
    simp only [buildQuery]
    split
    · exact ih _ _ mi h
    · split
      · exact ih _ _ mi (List.mem_append_left _ h)
      · exact ih _ _ mi h

/-- A declared query parameter that is absent and marked required lands in
the missing-input list under its sanitized name. -/
theorem buildQuery_miss_mem (args : JValue) (defs : List JValue) :
    ∀ (qs : List String) (acc : List (String × JValue)) (miss : List MissingInput)
      (q : String),
      q ∈ qs →
      jIsUndefined (jCoalesce (jget args q) (jget args (sanitizeName q))) = true →
      jTruthy (jget ((defs.find? (fun pd => jIsStr (jget pd "name") q)).getD .vUndefined)
        "required") = true →
      ∃ mi, mi ∈ (buildQuery args defs qs acc miss).snd ∧
        mi.name = sanitizeName q ∧ mi.loc = "query" := by
  intro qs
  induction qs with
  | nil => exact fun acc miss q h _ _ => absurd h (List.not_mem_nil q)
  | cons q0 rest ih =>
    intro acc miss q hmem habs hreq
    rcases List.mem_cons.mp hmem with heq | htail
    · subst heq
      have hstep : buildQuery args defs (q :: rest) acc miss =
          buildQuery args defs rest acc (miss ++
            [⟨sanitizeName q,
              jget (((defs.find? (fun pd => jIsStr (jget pd "name") q)).getD .vUndefined))
                "description", "query",
              jget (((defs.find? (fun pd => jIsStr (jget pd "name") q)).getD .vUndefined))
                "schema"⟩]) := by
        simp only [buildQuery]
        rw [if_neg (not_not_intro habs), if_pos hreq]
      rw [hstep]
      exact ⟨⟨sanitizeName q,
          jget (((defs.find? (fun pd => jIsStr (jget pd "name") q)).getD .vUndefined))
            "description", "query",
          jget (((defs.find? (fun pd => jIsStr (jget pd "name") q)).getD .vUndefined))
            "schema"⟩,
        buildQuery_miss_sub args defs rest acc _ _
          (List.mem_append_right _ (List.mem_singleton.mpr rfl)), rfl, rfl⟩
    · simp only [buildQuery]
      split
      · exact ih _ _ q htail habs hreq
      · split
        · exact ih _ _ q htail habs hreq
        · exact ih _ _ q htail habs hreq

/-- One header iteration only appends to the missing-input accumulator. -/
theorem buildHeaderStep_miss_sub (args : JValue) (defs : List JValue) (o : Oracle)
    (hd : String) (st : HeaderStage) (mi : MissingInput) (h : mi ∈ st.miss) :
    mi ∈ (buildHeaderStep args defs o hd st).miss := by
  simp only [buildHeaderStep]
  repeat' split
  all_goals first
    | exact h
    | exact List.mem_append_left _ h

/-- The header stage only appends to the missing-input accumulator. -/
theorem buildHeaders_miss_sub (args : JValue) (defs : List JValue) (o : Oracle) :
    ∀ (hs : List String) (st : HeaderStage) (mi : MissingInput),
      mi ∈ st.miss → mi ∈ (buildHeaders args defs o hs st).miss := by
  intro hs
  induction hs with
  | nil => exact fun st mi h => h
  | cons hd rest ih =>
    intro st mi h
    exact ih _ mi (buildHeaderStep_miss_sub args defs o hd st mi h)

/-- An absent, required header parameter other than `x-access-token` is
pushed onto the missing-input list by its iteration. -/
theorem buildHeaderStep_push (args : JValue) (defs : List JValue) (o : Oracle)
    (hd : String) (st : HeaderStage)
    (h_ne : hd ≠ "x-access-token")
    (habs : jIsUndefined (jCoalesce (jget args hd) (jget args (sanitizeName hd))) = true)
    (hreq : jTruthy (jget ((defs.find? (fun pd => jIsStr (jget pd "name") hd)).getD .vUndefined)
      "required") = true) :
    (buildHeaderStep args defs o hd st).miss = st.miss ++
      [⟨sanitizeName hd,
        jget (((defs.find? (fun pd => jIsStr (jget pd "name") hd)).getD .vUndefined))
          "description", "header",
        jget (((defs.find? (fun pd => jIsStr (jget pd "name") hd)).getD .vUndefined))
          "schema"⟩] := by
  simp only [buildHeaderStep]
  rw [if_neg (show ¬ (hd = "x-access-token" ∧
      ¬ jTruthy (jCoalesce (jget args hd) (jget args (sanitizeName hd))) = true ∧
      ¬ jTruthy st.client.amazonAccessToken = true) from fun hc => h_ne hc.1),
    if_neg (show ¬ (hd = "x-access-token" ∧
      ¬ jTruthy (jCoalesce (jget args hd) (jget args (sanitizeName hd))) = true)
      from fun hc => h_ne hc.1),
    if_neg (not_not_intro habs), if_pos hreq]

/-- A declared header parameter other than `x-access-token` that is absent
and marked required lands in the missing-input list. -/
theorem buildHeaders_miss_mem (args : JValue) (defs : List JValue) (o : Oracle) :
    ∀ (hs : List String) (st : HeaderStage) (hd : String),
      hd ∈ hs → hd ≠ "x-access-token" →
      jIsUndefined (jCoalesce (jget args hd) (jget args (sanitizeName hd))) = true →
      jTruthy (jget ((defs.find? (fun pd => jIsStr (jget pd "name") hd)).getD .vUndefined)
        "required") = true →
      ∃ mi, mi ∈ (buildHeaders args defs o hs st).miss ∧
        mi.name = sanitizeName hd ∧ mi.loc = "header" := by
  intro hs
  induction hs with
  | nil => exact fun st hd h _ _ _ => absurd h (List.not_mem_nil hd)
  | cons h0 rest ih =>
    intro st hd hmem h_ne habs hreq
    rcases List.mem_cons.mp hmem with heq | htail
    · subst heq
      rw [buildHeaders]
      refine ⟨⟨sanitizeName hd,
          jget (((defs.find? (fun pd => jIsStr (jget pd "name") hd)).getD .vUndefined))
            "description", "header",
          jget (((defs.find? (fun pd => jIsStr (jget pd "name") hd)).getD .vUndefined))
            "schema"⟩,
        buildHeaders_miss_sub args defs o rest _ _ ?_, rfl, rfl⟩
      rw [buildHeaderStep_push args defs o hd st h_ne habs hreq]
      exact List.mem_append_right _ (List.mem_singleton.mpr rfl)
    · rw [buildHeaders]
      exact ih _ hd htail h_ne habs hreq

/-- The header-stage missing inputs are contained in the full list. -/
theorem opMissingInputs_sub (op : Operation) (args : JValue) (client0 : ClientState)
    (o : Oracle) (mi : MissingInput) (h : mi ∈ (opHeaderStage op args client0 o).miss) :
    mi ∈ opMissingInputs op args client0 o := by
  simp only [opMissingInputs]
  split
  · exact List.mem_append_left _ h
  · exact h

/-- Everything surviving the elicitation filter has a name other than
`api_token`. -/
theorem opFilteredMissing_names (op : Operation) (args : JValue) (client0 : ClientState)
    (o : Oracle) (mi : MissingInput)
    (h : mi ∈ opFilteredMissing op args client0 o) : mi.name ≠ "api_token" := by
  have := List.of_mem_filter h
  simpa using this

/-- A header iteration for a name other than `x-access-token` never
fetches, never touches the client, and never touches the
`x-access-token` header entry. -/
theorem buildHeaderStep_other (args : JValue) (defs : List JValue) (o : Oracle)
    (hd : String) (st : HeaderStage) (h_ne : hd ≠ "x-access-token") :
    (buildHeaderStep args defs o hd st).client = st.client ∧
    (buildHeaderStep args defs o hd st).fetches = st.fetches ∧
    lookupKey (buildHeaderStep args defs o hd st).headers "x-access-token" =
      lookupKey st.headers "x-access-token" := by
  simp only [buildHeaderStep]
  rw [if_neg (show ¬ (hd = "x-access-token" ∧
      ¬ jTruthy (jCoalesce (jget args hd) (jget args (sanitizeName hd))) = true ∧
      ¬ jTruthy st.client.amazonAccessToken = true) from fun hc => h_ne hc.1),
    if_neg (show ¬ (hd = "x-access-token" ∧
      ¬ jTruthy (jCoalesce (jget args hd) (jget args (sanitizeName hd))) = true)
      from fun hc => h_ne hc.1)]
  split
  · exact ⟨rfl, rfl, lookupKey_jsetKey_ne _ _ _ _ (Ne.symm h_ne)⟩
  · split
    · exact ⟨rfl, rfl, rfl⟩
    · exact ⟨rfl, rfl, rfl⟩

/-- The `x-access-token` iteration with no caller value and a truthy cached
token: no fetch, the cached token becomes the header value. -/
theorem buildHeaderStep_xat_cached (args : JValue) (defs : List JValue) (o : Oracle)
    (st : HeaderStage)
    (h_noval : jCoalesce (jget args "x-access-token")
      (jget args (sanitizeName "x-access-token")) = .vUndefined)
    (hC : jTruthy st.client.amazonAccessToken = true) :
    buildHeaderStep args defs o "x-access-token" st =
      { st with headers :=
          jsetKey st.headers "x-access-token" st.client.amazonAccessToken } := by
  have hni : jIsUndefined st.client.amazonAccessToken = false := by
    cases htk : st.client.amazonAccessToken <;> simp_all [jTruthy, jIsUndefined]
  simp [buildHeaderStep, h_noval, hC, hni, show jTruthy JValue.vUndefined = false from rfl]

/-- The `x-access-token` iteration with no caller value, a falsy cached
token and a successful fetch of a defined token: one fetch, the token is
cached and becomes the header value. -/
theorem buildHeaderStep_xat_fetch_ok (args : JValue) (defs : List JValue) (o : Oracle)
    (st : HeaderStage) (t : JValue)
    (h_noval : jCoalesce (jget args "x-access-token")
      (jget args (sanitizeName "x-access-token")) = .vUndefined)
    (hC : jTruthy st.client.amazonAccessToken = false)
    (hf : o.amazonFetch = .ok t)
    (ht : jIsUndefined t = false) :
    buildHeaderStep args defs o "x-access-token" st =
      { st with
        client := { st.client with amazonAccessToken := t }
        fetches := st.fetches + 1
        headers := jsetKey st.headers "x-access-token" t } := by
  simp [buildHeaderStep, h_noval, hf, hC, ht, show jTruthy JValue.vUndefined = false from rfl]

/-- The `x-access-token` iteration with no caller value, a falsy, defined
cached token and a failed fetch: one fetch, the failure is swallowed, and
the old cached value (normally `null`) is still written into the headers
object, so nothing is recorded as missing. -/
theorem buildHeaderStep_xat_fetch_err (args : JValue) (defs : List JValue) (o : Oracle)
    (st : HeaderStage) (e : String)
    (h_noval : jCoalesce (jget args "x-access-token")
      (jget args (sanitizeName "x-access-token")) = .vUndefined)
    (hC : jTruthy st.client.amazonAccessToken = false)
    (hCd : jIsUndefined st.client.amazonAccessToken = false)
    (hf : o.amazonFetch = .error e) :
    buildHeaderStep args defs o "x-access-token" st =
      { st with
        fetches := st.fetches + 1
        headers := jsetKey st.headers "x-access-token" st.client.amazonAccessToken } := by
  simp [buildHeaderStep, h_noval, hf, hC, hCd, show jTruthy JValue.vUndefined = false from rfl]

/-- With a truthy cached vendor token, the whole header stage fetches
nothing, leaves the cache alone, and (once the header is reached, or if it
was already set) the `x-access-token` entry holds the cached token. -/
theorem buildHeaders_xat_cached (args : JValue) (defs : List JValue) (o : Oracle)
    (C : JValue) (hC : jTruthy C = true)
    (h_noval : jCoalesce (jget args "x-access-token")
      (jget args (sanitizeName "x-access-token")) = .vUndefined) :
    ∀ (hs : List String) (st : HeaderStage),
      st.client.amazonAccessToken = C →
      ("x-access-token" ∈ hs ∨ lookupKey st.headers "x-access-token" = some C) →
      lookupKey (buildHeaders args defs o hs st).headers "x-access-token" = some C ∧
      (buildHeaders args defs o hs st).fetches = st.fetches ∧
      (buildHeaders args defs o hs st).client.amazonAccessToken = C := by
  intro hs
  induction hs with
  | nil =>
    intro st hcache hset
    rcases hset with h | h
    · exact absurd h (List.not_mem_nil _)
    · exact ⟨h, rfl, hcache⟩
  | cons hd rest ih =>
    intro st hcache hset
    by_cases hxe : hd = "x-access-token"
    · subst hxe
      rw [buildHeaders, buildHeaderStep_xat_cached args defs o st h_noval (hcache ▸ hC)]
      refine ih _ hcache (Or.inr ?_)
      rw [hcache]
      exact lookupKey_jsetKey_self _ _ _
    · obtain ⟨hcl, hfe, hlk⟩ := buildHeaderStep_other args defs o hd st hxe
      rw [buildHeaders]
      have hset2 : "x-access-token" ∈ rest ∨
          lookupKey (buildHeaderStep args defs o hd st).headers "x-access-token" = some C := by
        rcases hset with h | h
        · rcases List.mem_cons.mp h with he | ht
          · exact absurd he.symm hxe
          · exact Or.inl ht
        · exact Or.inr (by rw [hlk]; exact h)
      obtain ⟨h1, h2, h3⟩ := ih (buildHeaderStep args defs o hd st) (by rw [hcl]; exact hcache) hset2
      exact ⟨h1, by rw [h2, hfe], h3⟩

/-- With a falsy cached vendor token and a successful fetch of a truthy
token, the header stage caches the fetched token and uses it as the
`x-access-token` value. -/
theorem buildHeaders_xat_fetch_ok (args : JValue) (defs : List JValue) (o : Oracle)
    (t : JValue) (ht : jTruthy t = true)
    (h_noval : jCoalesce (jget args "x-access-token")
      (jget args (sanitizeName "x-access-token")) = .vUndefined)
    (hf : o.amazonFetch = .ok t) :
    ∀ (hs : List String) (st : HeaderStage),
      jTruthy st.client.amazonAccessToken = false →
      "x-access-token" ∈ hs →
      lookupKey (buildHeaders args defs o hs st).headers "x-access-token" = some t ∧
      (buildHeaders args defs o hs st).client.amazonAccessToken = t := by
  intro hs
  induction hs with
  | nil => exact fun st _ h => absurd h (List.not_mem_nil _)
  | cons hd rest ih =>
    intro st hcache hmem
    by_cases hxe : hd = "x-access-token"
    · subst hxe
      have htd : jIsUndefined t = false := by
        cases hc : t <;> simp_all [jTruthy, jIsUndefined]
      rw [buildHeaders, buildHeaderStep_xat_fetch_ok args defs o st t h_noval hcache hf htd]
      have := buildHeaders_xat_cached args defs o t ht h_noval rest
        { st with
          client := { st.client with amazonAccessToken := t }
          fetches := st.fetches + 1
          headers := jsetKey st.headers "x-access-token" t }
        rfl (Or.inr (lookupKey_jsetKey_self _ _ _))
      exact ⟨this.1, this.2.2⟩
    · obtain ⟨hcl, _, _⟩ := buildHeaderStep_other args defs o hd st hxe
      rw [buildHeaders]
      have hmem2 : "x-access-token" ∈ rest := by
        rcases List.mem_cons.mp hmem with he | htl
        · exact absurd he.symm hxe
        · exact htl
      exact ih _ (by rw [hcl]; exact hcache) hmem2

/-- Any entry one header iteration adds to the missing list is named after
that iteration's (sanitized) header. -/
theorem buildHeaderStep_miss_names (args : JValue) (defs : List JValue) (o : Oracle)
    (hd : String) (st : HeaderStage) (mi : MissingInput)
    (h : mi ∈ (buildHeaderStep args defs o hd st).miss) :
    mi ∈ st.miss ∨ mi.name = sanitizeName hd := by
  revert h
  simp only [buildHeaderStep]
  repeat' split
  all_goals intro h
  all_goals first
    | exact Or.inl h
    | (rcases List.mem_append.mp h with h1 | h1
       exacts [Or.inl h1, Or.inr (by rw [List.mem_singleton.mp h1])])

/-- With a `null` cached vendor token and a failing fetch, the header stage
still writes the (null) value into the headers object — so the header is
absent from the wire but never recorded as a missing input — and the cache
stays `null`; every missing entry the stage adds comes from some header
other than `x-access-token`. -/
theorem buildHeaders_xat_fetch_err (args : JValue) (defs : List JValue) (o : Oracle)
    (e : String)
    (h_noval : jCoalesce (jget args "x-access-token")
      (jget args (sanitizeName "x-access-token")) = .vUndefined)
    (hf : o.amazonFetch = .error e) :
    ∀ (hs : List String) (st : HeaderStage),
      st.client.amazonAccessToken = .vNull →
      ("x-access-token" ∈ hs ∨ lookupKey st.headers "x-access-token" = some .vNull) →
      lookupKey (buildHeaders args defs o hs st).headers "x-access-token" = some .vNull ∧
      (buildHeaders args defs o hs st).client.amazonAccessToken = .vNull ∧
      (∀ mi, mi ∈ (buildHeaders args defs o hs st).miss → mi ∈ st.miss ∨
        ∃ hd2, hd2 ∈ hs ∧ hd2 ≠ "x-access-token" ∧ mi.name = sanitizeName hd2) := by
  intro hs
  induction hs with
  | nil =>
    intro st hcache hset
    rcases hset with h | h
    · exact absurd h (List.not_mem_nil _)
    · exact ⟨h, hcache, fun mi hm => Or.inl hm⟩
  | cons hd rest ih =>
    intro st hcache hset
    by_cases hxe : hd = "x-access-token"
    · subst hxe
      rw [buildHeaders, buildHeaderStep_xat_fetch_err args defs o st e h_noval
        (by rw [hcache]; rfl) (by rw [hcache]; rfl) hf]
      obtain ⟨h1, h2, h3⟩ := ih
        { st with
          fetches := st.fetches + 1
          headers := jsetKey st.headers "x-access-token" st.client.amazonAccessToken }
        hcache (Or.inr (by rw [hcache]; exact lookupKey_jsetKey_self _ _ _))
      refine ⟨h1, h2, fun mi hm => ?_⟩
      rcases h3 mi hm with hin | ⟨hd2, hmem2, hne2, hnm2⟩
      · exact Or.inl hin
      · exact Or.inr ⟨hd2, List.mem_cons_of_mem _ hmem2, hne2, hnm2⟩
    · obtain ⟨hcl, _, hlk⟩ := buildHeaderStep_other args defs o hd st hxe
      rw [buildHeaders]
      have hset2 : "x-access-token" ∈ rest ∨
          lookupKey (buildHeaderStep args defs o hd st).headers "x-access-token" =
            some .vNull := by
        rcases hset with h | h
        · rcases List.mem_cons.mp h with he | htl
          · exact absurd he.symm hxe
          · exact Or.inl htl
        · exact Or.inr (by rw [hlk]; exact h)
      obtain ⟨h1, h2, h3⟩ := ih _ (by rw [hcl]; exact hcache) hset2
      refine ⟨h1, h2, fun mi hm => ?_⟩
      rcases h3 mi hm with hin | ⟨hd2, hmem2, hne2, hnm2⟩
      · rcases buildHeaderStep_miss_names args defs o hd st mi hin with h4 | h4
        · exact Or.inl h4
        · exact Or.inr ⟨hd, List.mem_cons_self _ _, hxe, h4⟩
      · exact Or.inr ⟨hd2, List.mem_cons_of_mem _ hmem2, hne2, hnm2⟩

/-- A successful security resolution never touches header keys other than
`Authorization`. -/
theorem resolveAuth_headers_ne (openApi : JValue) (op : Operation) (args : JValue)
    (headers : List (String × JValue)) (client : ClientState) (o : Oracle)
    (k : String) (hk : k ≠ "Authorization") (h2 : List (String × JValue)) (b : Bool) :
    (resolveAuth openApi op args headers client o).result = .ok (h2, b) →
      lookupKey h2 k = lookupKey headers k := by
  simp only [resolveAuth, authenticate]
  repeat' split
  all_goals intro h
  all_goals first
    | exact Except.noConfusion h
    | (injection h with h3; cases h3; first
        | rfl
        | exact lookupKey_jdelKey_ne _ _ _ hk
        | exact lookupKey_jsetKey_ne _ _ _ _ hk)

/-- Every dispatch branch reports the header stage's fetch count. -/
theorem dispatchOp_fetches (srv : ServerState) (op : Operation) (args : JValue)
    (client0 : ClientState) (o : Oracle) :
    (dispatchOp srv op args client0 o).amazonFetches =
      (opHeaderStage op args client0 o).fetches := by
  simp only [dispatchOp]
  split
  · rfl
  · split
    · rfl
    · split
      · rfl
      · split <;> rfl

/-- An issued request's headers agree with the header stage on every key
other than `Authorization`. -/
theorem dispatchOp_issued_headers (srv : ServerState) (op : Operation) (args : JValue)
    (client0 : ClientState) (o : Oracle) (k : String) (hk : k ≠ "Authorization") :
    ∀ req, (dispatchOp srv op args client0 o).issued = some req →
      lookupKey req.headers k =
        lookupKey (opHeaderStage op args client0 o).headers k := by
  simp only [dispatchOp]
  split
  · exact fun req h => Option.noConfusion h
  · split
    · exact fun req h => Option.noConfusion h
    · rename_i headers2 useBasic heq
      have hra := resolveAuth_headers_ne srv.openApi op (opArgsOrEmpty args)
        (opHeaderStage op args client0 o).headers (opHeaderStage op args client0 o).client
        o k hk headers2 useBasic heq
      split
      · exact fun req h => Option.noConfusion h
      · split <;> (intro req h; injection h with h2; rw [← h2]; exact hra)

theorem setAssoc_cons_pos {α : Type} (key : String) (v v1 : α) (rest : List (String × α)) :
    setAssoc ((key, v1) :: rest) key v = (key, v) :: rest := by
  simp [setAssoc]

theorem setAssoc_cons_neg {α : Type} (k1 key : String) (v v1 : α)
    (rest : List (String × α)) (h : ¬ k1 = key) :
    setAssoc ((k1, v1) :: rest) key v = (k1, v1) :: setAssoc rest key v := by
  simp [setAssoc, h]

theorem lookup_setAssoc {α : Type} (l : List (String × α)) (k key : String) (v : α) :
    (setAssoc l key v).lookup k = if k = key then some v else l.lookup k := by
  induction l with
  | nil =>
    by_cases h : k = key
    · simp [setAssoc, h]
    · simp only [setAssoc, if_neg h, List.lookup_nil]
      rw [lookup_cons_ne k key v _ h, List.lookup_nil]
  | cons kv rest ih =>
    obtain ⟨k1, v1⟩ := kv
    by_cases h1 : k1 = key
    · subst h1
      rw [setAssoc_cons_pos k1 v v1 rest]
      by_cases h : k = k1
      · subst h
        simp
      · rw [lookup_cons_ne k k1 v _ h, lookup_cons_ne k k1 v1 _ h, if_neg h]
    · rw [setAssoc_cons_neg k1 key v v1 rest h1]
      by_cases h : k = k1
      · subst h
        rw [if_neg h1]
        simp
      · rw [lookup_cons_ne k k1 v1 _ h, lookup_cons_ne k k1 v1 _ h, ih]

/-- A suffix "/" survives appending "/". -/
theorem jsEndsWith_append_slash (u : String) : jsEndsWith (u ++ "/") "/" = true := by
  simp only [jsEndsWith, List.isSuffixOf_iff_suffix]
  show "/".toList <:+ (u ++ "/").toList
  rw [show (u ++ "/").toList = u.toList ++ "/".toList from String.data_append u "/"]
  exact List.suffix_append _ _

/-- With the trailing-slash flag set, the restored URL always ends in a
slash. -/
theorem restoreTrailingSlash_flag (u : String) :
    jsEndsWith (restoreTrailingSlash true u) "/" = true := by
  simp only [restoreTrailingSlash]
  split
  · exact jsEndsWith_append_slash u
  · rename_i h
    by_cases he : jsEndsWith u "/" = true
    · exact he
    · exact absurd ⟨trivial, he⟩ h

/-- A nonempty suffix forces a nonempty string. -/
theorem jsEndsWith_slash_ne_empty (pk : String) (h : jsEndsWith pk "/" = true) :
    pk ≠ "" := by
  intro he
  subst he
  exact Bool.noConfusion h

/-- The compiler stores the scanned path verbatim and sets the
trailing-slash flag both for templates that end in a slash and for the
special-cased `/account` + `getProxyUsers` pair. -/
theorem compileOperation_flag (d : JValue) (pk : String) (pi2 : JValue) (m : String)
    (t : Tool) (key : String) (op : Operation)
    (h : compileOperation d pk pi2 m = some (t, key, op)) :
    op.path = pk ∧
    ((jsEndsWith op.path "/" = true ∨ (op.path = "/account" ∧ key = "getProxyUsers")) →
      op.pathHasTrailingSlash = true) := by
  simp only [compileOperation] at h
  split at h
  · exact Option.noConfusion h
  · injection h with h2
    injection h2 with h2t h2rest
    injection h2rest with h2k h2o
    subst h2k
    subst h2o
    refine ⟨rfl, fun hc => ?_⟩
    rcases hc with hslash | ⟨hacc, hgpu⟩
    · have hslash2 : jsEndsWith pk "/" = true := hslash
      have hne : pk ≠ "" := jsEndsWith_slash_ne_empty pk hslash2
      dsimp only
      split <;> split
      all_goals first
        | rfl
        | simp [hne, hslash2]
    · have hacc2 : pk = "/account" := hacc
      dsimp only
      rw [if_pos ⟨fun hf => Bool.noConfusion (show jsEndsWith "/account" "/" = true
        from hacc2 ▸ hf.2), hacc2, hgpu⟩]

/-- Every entry of the compiled operation table satisfies the
trailing-slash flag specification. -/
theorem generateFromCurrentOpenApi_flag (srv0 : ServerState) :
    ∀ k op, (generateFromCurrentOpenApi srv0).operationMap.lookup k = some op →
      (jsEndsWith op.path "/" = true ∨ (op.path = "/account" ∧ k = "getProxyUsers")) →
      op.pathHasTrailingSlash = true := by
  have hmethods : ∀ (ms : List String) (d : JValue) (pk : String) (pi2 : JValue)
      (acc : List Tool × List (String × Operation)),
      (∀ k op, acc.snd.lookup k = some op →
        (jsEndsWith op.path "/" = true ∨ (op.path = "/account" ∧ k = "getProxyUsers")) →
        op.pathHasTrailingSlash = true) →
      ∀ k op, (ms.foldl (fun acc2 m =>
          match compileOperation d pk pi2 m with
          | none => acc2
          | some (tool, key, op2) => (acc2.fst ++ [tool], setAssoc acc2.snd key op2))
        acc).snd.lookup k = some op →
        (jsEndsWith op.path "/" = true ∨ (op.path = "/account" ∧ k = "getProxyUsers")) →
        op.pathHasTrailingSlash = true := by
    intro ms
    induction ms with
    | nil => exact fun d pk pi2 acc hacc => hacc
    | cons m rest ih =>
      intro d pk pi2 acc hacc
      simp only [List.foldl_cons]
      refine ih d pk pi2 _ ?_
      cases hco : compileOperation d pk pi2 m with
      | none => exact hacc
      | some tko =>
        obtain ⟨tool, key, op2⟩ := tko
        intro k op hl hc
        rw [lookup_setAssoc] at hl
        split at hl
        · rename_i hkk
          subst hkk
          injection hl with hl2
          subst hl2
          exact (compileOperation_flag d pk pi2 m tool _ _ hco).2 hc
        · exact hacc k op hl hc
  have hpaths : ∀ (pks : List String) (d pathsV : JValue)
      (acc : List Tool × List (String × Operation)),
      (∀ k op, acc.snd.lookup k = some op →
        (jsEndsWith op.path "/" = true ∨ (op.path = "/account" ∧ k = "getProxyUsers")) →
        op.pathHasTrailingSlash = true) →
      ∀ k op, (pks.foldl (fun acc pathKey =>
          compiledMethods.foldl (fun acc2 m =>
            match compileOperation d pathKey (jOr (jget pathsV pathKey) (.vObj [])) m with
            | none => acc2
            | some (tool, key, op2) => (acc2.fst ++ [tool], setAssoc acc2.snd key op2))
          acc) acc).snd.lookup k = some op →
        (jsEndsWith op.path "/" = true ∨ (op.path = "/account" ∧ k = "getProxyUsers")) →
        op.pathHasTrailingSlash = true := by
    intro pks
    induction pks with
    | nil => exact fun d pathsV acc hacc => hacc
    | cons pk rest ih =>
      intro d pathsV acc hacc
      simp only [List.foldl_cons]
      exact ih d pathsV _ (hmethods compiledMethods d pk _ acc hacc)
  intro k op hl hc
  simp only [generateFromCurrentOpenApi] at hl
  split at hl
  · exact absurd hl (by simp)
  · exact hpaths _ _ _ ([], []) (fun k2 op2 h2 => absurd h2 (by simp)) k op hl hc

/-! ## Template lemmas for placeholder substitution -/

/-- Bridge between the boolean prefix test and the prefix relation. -/
theorem isPrefixOfIff (l1 l2 : List Char) : l1.isPrefixOf l2 = true ↔ l1 <+: l2 :=
  List.isPrefixOf_iff_prefix

/-- Strings with equal character lists are equal. -/
theorem string_eq_of_toList {a b : String} (h : a.toList = b.toList) : a = b := by
  cases a
  cases b
  exact congrArg String.mk h

/-- Character list of a concatenation. -/
theorem toList_append (a b : String) : (a ++ b).toList = a.toList ++ b.toList :=
  String.data_append a b

/-- Unfolding of a brace-freeness certificate to its characters. -/
theorem braceFree_mem {s : String} (h : braceFree s = true) :
    ∀ c ∈ s.toList, c ≠ braceOpen ∧ c ≠ braceClose := by
  intro c hc
  have h2 := List.all_eq_true.mp h c hc
  simp only [Bool.and_eq_true, decide_eq_true_eq] at h2
  exact h2

/-- The characters of a placeholder. -/
theorem mkPlaceholder_toList (p : String) :
    (mkPlaceholder p).toList = braceOpen :: (p.toList ++ [braceClose]) := rfl

/-- A failed head test steps the replacement scan. -/
theorem replaceFirstL_cons_neg (pat repl : List Char) (c : Char) (cs : List Char)
    (h : pat.isPrefixOf (c :: cs) = false) :
    replaceFirstL pat repl (c :: cs) = c :: replaceFirstL pat repl cs := by
  simp only [replaceFirstL]
  rw [if_neg (by simp [h])]

/-- Replacement at an exact pattern occurrence at the head. -/
theorem replaceFirstL_exact (pat repl tail : List Char) (h : pat ≠ []) :
    replaceFirstL pat repl (pat ++ tail) = repl ++ tail := by
  cases pat with
  | nil => exact absurd rfl h
  | cons a t =>
    simp only [List.cons_append, replaceFirstL]
    split
    · rw [List.length_cons, List.drop_succ_cons]
      congr 1
      exact List.drop_left t tail
    · rename_i hf
      exact absurd ((isPrefixOfIff _ _).mpr ⟨tail, rfl⟩) hf

/-- The replacement scan for a brace-opened pattern walks past text free of
opening braces. -/
theorem replaceFirstL_skip (t repl : List Char) :
    ∀ (A B : List Char), (∀ c ∈ A, c ≠ braceOpen) →
      replaceFirstL (braceOpen :: t) repl (A ++ B) =
        A ++ replaceFirstL (braceOpen :: t) repl B := by
  intro A
  induction A with
  | nil => intro B _; rfl
  | cons c A ih =>
    intro B hA
    have hc : c ≠ braceOpen := hA c (List.mem_cons_self c A)
    have hbc : (braceOpen == c) = false := beq_eq_false_iff_ne.mpr (Ne.symm hc)
    have hnp : (braceOpen :: t).isPrefixOf (c :: (A ++ B)) = false := by
      simp only [List.isPrefixOf, hbc, Bool.false_and]
    rw [List.cons_append, replaceFirstL_cons_neg _ _ _ _ hnp,
      ih B (fun c2 h2 => hA c2 (List.mem_cons_of_mem c h2))]
    exact (List.cons_append c A (replaceFirstL (braceOpen :: t) repl B)).symm

/-- Two close-brace-free words followed by a closing brace match as
prefixes only when they are the same word. -/
theorem close_brace_aligned :
    ∀ (P Q r : List Char), (∀ c ∈ P, c ≠ braceClose) → (∀ c ∈ Q, c ≠ braceClose) →
      (P ++ [braceClose]) <+: (Q ++ braceClose :: r) → P = Q := by
  intro P
  induction P with
  | nil =>
    intro Q r _ hQ hpre
    cases Q with
    | nil => rfl
    | cons q Q2 =>
      obtain ⟨u, hu⟩ := hpre
      simp only [List.nil_append, List.cons_append] at hu
      injection hu with h1 _
      exact absurd h1.symm (hQ q (List.mem_cons_self q Q2))
  | cons a P2 ih =>
    intro Q r hP hQ hpre
    cases Q with
    | nil =>
      obtain ⟨u, hu⟩ := hpre
      simp only [List.cons_append, List.nil_append] at hu
      injection hu with h1 _
      exact absurd h1 (hP a (List.mem_cons_self a P2))
    | cons q Q2 =>
      obtain ⟨u, hu⟩ := hpre
      simp only [List.cons_append] at hu
      injection hu with h1 h2
      subst h1
      have h3 := ih Q2 r (fun c h => hP c (List.mem_cons_of_mem a h))
        (fun c h => hQ c (List.mem_cons_of_mem a h)) ⟨u, h2⟩
      rw [h3]

/-- A name is among a template's parameters exactly when its placeholder
segment occurs. -/
theorem mem_segParams (q : String) :
    ∀ segs : List Seg, q ∈ segParams segs ↔ Seg.param q ∈ segs := by
  intro segs
  induction segs with
  | nil => simp [segParams]
  | cons sg rest ih =>
    cases sg with
    | lit s =>
      simp only [segParams]
      rw [ih]
      constructor
      · exact fun h => List.mem_cons_of_mem _ h
      · intro h
        rcases List.mem_cons.mp h with h1 | h2
        · exact absurd h1 (fun hx => Seg.noConfusion hx)
        · exact h2
    | param n =>
      simp only [segParams]
      constructor
      · intro h
        rcases List.mem_cons.mp h with h1 | h2
        · subst h1
          exact List.mem_cons_self _ _
        · exact List.mem_cons_of_mem _ (ih.mp h2)
      · intro h
        rcases List.mem_cons.mp h with h1 | h2
        · injection h1 with hq
          subst hq
          exact List.mem_cons_self _ _
        · exact List.mem_cons_of_mem _ (ih.mpr h2)

/-- Parameter names distribute over template concatenation. -/
theorem segParams_append :
    ∀ (a b : List Seg), segParams (a ++ b) = segParams a ++ segParams b := by
  intro a b
  induction a with
  | nil => rfl
  | cons sg rest ih =>
    cases sg with
    | lit s => simpa [segParams] using ih
    | param n => simp [segParams, ih]

/-- A template splits at the first occurrence of any of its parameters. -/
theorem seg_split (q : String) :
    ∀ segs : List Seg, q ∈ segParams segs →
      ∃ s1 s2, segs = s1 ++ Seg.param q :: s2 ∧ q ∉ segParams s1 := by
  intro segs
  induction segs with
  | nil => exact fun h => absurd h (List.not_mem_nil q)
  | cons sg rest ih =>
    cases sg with
    | lit s =>
      intro h
      obtain ⟨s1, s2, h1, h2⟩ := ih (by simpa [segParams] using h)
      refine ⟨Seg.lit s :: s1, s2, ?_, by simpa [segParams] using h2⟩
      rw [List.cons_append, h1]
    | param n =>
      intro h
      by_cases hqn : q = n
      · subst hqn
        exact ⟨[], rest, rfl, by simp [segParams]⟩
      · have h2 : q ∈ segParams rest := by
          simp only [segParams] at h
          rcases List.mem_cons.mp h with h1 | h2
          · exact absurd h1 hqn
          · exact h2
        obtain ⟨s1, s2, hs1, hs2⟩ := ih h2
        refine ⟨Seg.param n :: s1, s2, ?_, ?_⟩
        · rw [List.cons_append, hs1]
        · simp only [segParams, List.mem_cons]
          rintro (h3 | h3)
          · exact hqn h3
          · exact hs2 h3

/-- Characters of a rendered template concatenation. -/
theorem renderTemplate_toList_append (S : List (String × String)) :
    ∀ (a b : List Seg), (renderTemplate S (a ++ b)).toList =
      (renderTemplate S a).toList ++ (renderTemplate S b).toList := by
  intro a b
  induction a with
  | nil => rfl
  | cons sg rest ih =>
    simp only [List.cons_append, renderTemplate, toList_append, List.append_assoc]
    exact congrArg (fun l => (renderSeg S sg).toList ++ l) ih

/-- Extending the fill at a parameter absent from a template leaves its
rendering unchanged. -/
theorem renderTemplate_extend (p v : String) (S : List (String × String)) :
    ∀ segs : List Seg, Seg.param p ∉ segs →
      renderTemplate ((p, v) :: S) segs = renderTemplate S segs := by
  intro segs
  induction segs with
  | nil => intro _; rfl
  | cons sg rest ih =>
    intro h
    have h1 : Seg.param p ∉ rest := fun hx => h (List.mem_cons_of_mem sg hx)
    cases sg with
    | lit s => simp only [renderTemplate, renderSeg, ih h1]
    | param n =>
      have hnp : n ≠ p := fun he => h (by rw [he]; exact List.mem_cons_self _ _)
      simp only [renderTemplate, renderSeg, lookup_cons_ne n p v S hnp, ih h1]

/-- A fully filled well-formed template renders without opening braces. -/
theorem renderTemplate_noOpen (S : List (String × String)) :
    ∀ segs : List Seg, (∀ sg ∈ segs, segWF sg = true) →
      (∀ q w, List.lookup q S = some w → braceFree w = true) →
      (∀ q, Seg.param q ∈ segs → (List.lookup q S).isSome = true) →
      ∀ c ∈ (renderTemplate S segs).toList, c ≠ braceOpen := by
  intro segs
  induction segs with
  | nil => intro _ _ _ c hc; exact absurd hc (List.not_mem_nil c)
  | cons sg rest ih =>
    intro hwf hvals hfill c hc
    rw [show renderTemplate S (sg :: rest) = renderSeg S sg ++ renderTemplate S rest
      from rfl, toList_append] at hc
    rcases List.mem_append.mp hc with h1 | h2
    · cases sg with
      | lit s =>
        exact (braceFree_mem (hwf _ (List.mem_cons_self _ _)) c h1).1
      | param n =>
        have hs : (List.lookup n S).isSome = true := hfill n (List.mem_cons_self _ _)
        cases hl : List.lookup n S with
        | none => rw [hl] at hs; exact Bool.noConfusion hs
        | some w =>
          have hw : renderSeg S (Seg.param n) = w := by simp [renderSeg, hl]
          rw [hw] at h1
          exact (braceFree_mem (hvals n w hl) c h1).1
    · exact ih (fun sg2 h => hwf sg2 (List.mem_cons_of_mem _ h)) hvals
        (fun q h => hfill q (List.mem_cons_of_mem _ h)) c h2

/-- The replacement scan for a parameter's placeholder passes over any
rendered prefix of the template in which that parameter is already filled
or absent: literals and filled values are brace-free, and any other
placeholder it meets differs from the pattern at the name. -/
theorem replaceFirstL_render_skip (p : String) (v : List Char) (S : List (String × String))
    (hbp : braceFree p = true) :
    ∀ segs : List Seg, ∀ B : List Char,
      (∀ sg ∈ segs, segWF sg = true) →
      (∀ q w, List.lookup q S = some w → braceFree w = true) →
      (∀ q, Seg.param q ∈ segs → List.lookup q S = none → q ≠ p) →
      replaceFirstL (mkPlaceholder p).toList v ((renderTemplate S segs).toList ++ B) =
        (renderTemplate S segs).toList ++ replaceFirstL (mkPlaceholder p).toList v B := by
  intro segs
  induction segs with
  | nil => intro B _ _ _; rfl
  | cons sg rest ih =>
    intro B hwf hvals hnp
    have hsplit : (renderTemplate S (sg :: rest)).toList =
        (renderSeg S sg).toList ++ (renderTemplate S rest).toList :=
      toList_append (renderSeg S sg) (renderTemplate S rest)
    have hrest := ih B (fun s2 h => hwf s2 (List.mem_cons_of_mem _ h)) hvals
      (fun q h => hnp q (List.mem_cons_of_mem _ h))
    cases sg with
    | lit s =>
      have hfree : ∀ c ∈ (renderSeg S (Seg.lit s)).toList, c ≠ braceOpen :=
        fun c hc => (braceFree_mem
          (show braceFree s = true from hwf _ (List.mem_cons_self _ _)) c hc).1
      rw [hsplit, List.append_assoc, mkPlaceholder_toList,
        replaceFirstL_skip (p.toList ++ [braceClose]) v (renderSeg S (Seg.lit s)).toList
          ((renderTemplate S rest).toList ++ B) hfree,
        ← mkPlaceholder_toList, hrest]
      simp only [List.cons_append, List.append_assoc]
    | param n =>
      cases hl : List.lookup n S with
      | some w =>
        have hfree : ∀ c ∈ (renderSeg S (Seg.param n)).toList, c ≠ braceOpen := by
          intro c hc
          rw [show renderSeg S (Seg.param n) = w from by simp [renderSeg, hl]] at hc
          exact (braceFree_mem (hvals n w hl) c hc).1
        rw [hsplit, List.append_assoc, mkPlaceholder_toList,
          replaceFirstL_skip (p.toList ++ [braceClose]) v (renderSeg S (Seg.param n)).toList
            ((renderTemplate S rest).toList ++ B) hfree,
          ← mkPlaceholder_toList, hrest]
        simp only [List.cons_append, List.append_assoc]
      | none =>
        have hnq : n ≠ p := hnp n (List.mem_cons_self _ _) hl
        have hwfn : braceFree n = true := hwf _ (List.mem_cons_self _ _)
        have hseg : renderSeg S (Seg.param n) = mkPlaceholder n := by simp [renderSeg, hl]
        rw [hsplit, hseg, List.append_assoc, mkPlaceholder_toList n, mkPlaceholder_toList p]
        have hnpre : (braceOpen :: (p.toList ++ [braceClose])).isPrefixOf
            (braceOpen :: ((n.toList ++ [braceClose]) ++
              ((renderTemplate S rest).toList ++ B))) = false := by
          cases hx : (braceOpen :: (p.toList ++ [braceClose])).isPrefixOf
              (braceOpen :: ((n.toList ++ [braceClose]) ++
                ((renderTemplate S rest).toList ++ B))) with
          | false => rfl
          | true =>
            obtain ⟨u, hu⟩ := (isPrefixOfIff _ _).mp hx
            simp only [List.cons_append] at hu
            injection hu with _ h2
            have h3 : (p.toList ++ [braceClose]) <+:
                (n.toList ++ braceClose ::
                  ((renderTemplate S rest).toList ++ B)) := by
              refine ⟨u, ?_⟩
              rw [h2, List.append_assoc]
              rfl
            have heq := close_brace_aligned p.toList n.toList _
              (fun c hc => (braceFree_mem hbp c hc).2)
              (fun c hc => (braceFree_mem hwfn c hc).2) h3
            exact absurd (string_eq_of_toList heq).symm hnq
        rw [List.cons_append, replaceFirstL_cons_neg _ _ _ _ hnpre]
        have hfree2 : ∀ c ∈ (n.toList ++ [braceClose]), c ≠ braceOpen := by
          intro c hc
          rcases List.mem_append.mp hc with h1 | h1
          · exact (braceFree_mem hwfn c h1).1
          · rw [List.mem_singleton.mp h1]
            decide
        rw [replaceFirstL_skip (p.toList ++ [braceClose]) v (n.toList ++ [braceClose])
          ((renderTemplate S rest).toList ++ B) hfree2,
          ← mkPlaceholder_toList p, hrest]
        simp only [List.cons_append, List.append_assoc, List.singleton_append]

/-- Substituting an unfilled parameter's placeholder in a rendered
well-formed template is exactly rendering with the fill extended at that
parameter. -/
theorem jsReplaceFirst_render (p v : String) (S : List (String × String)) (segs : List Seg)
    (hwf : ∀ sg ∈ segs, segWF sg = true)
    (hvals : ∀ q w, List.lookup q S = some w → braceFree w = true)
    (hnodup : (segParams segs).Nodup)
    (hp : p ∈ segParams segs)
    (hpS : List.lookup p S = none) :
    jsReplaceFirst (renderTemplate S segs) (mkPlaceholder p) v =
      renderTemplate ((p, v) :: S) segs := by
  obtain ⟨s1, s2, hsegs, hnp1⟩ := seg_split p segs hp
  have hbp : braceFree p = true :=
    hwf (Seg.param p)
      (by rw [hsegs]; exact List.mem_append_right _ (List.mem_cons_self _ _))
  have hnp2 : p ∉ segParams s2 := by
    rw [hsegs, segParams_append] at hnodup
    have hsub : List.Sublist (p :: segParams s2) (segParams s1 ++ (p :: segParams s2)) :=
      List.sublist_append_right _ _
    have h2 : (p :: segParams s2).Nodup := List.Sublist.nodup hsub hnodup
    exact (List.nodup_cons.mp h2).1
  apply string_eq_of_toList
  rw [show (jsReplaceFirst (renderTemplate S segs) (mkPlaceholder p) v).toList =
      replaceFirstL (mkPlaceholder p).toList v.toList (renderTemplate S segs).toList
      from rfl]
  rw [hsegs, renderTemplate_toList_append]
  have hmid : (renderTemplate S (Seg.param p :: s2)).toList =
      (mkPlaceholder p).toList ++ (renderTemplate S s2).toList := by
    rw [show renderTemplate S (Seg.param p :: s2) =
        renderSeg S (Seg.param p) ++ renderTemplate S s2 from rfl, toList_append,
      show renderSeg S (Seg.param p) = mkPlaceholder p from by simp [renderSeg, hpS]]
  rw [hmid]
  rw [replaceFirstL_render_skip p v.toList S hbp s1
    ((mkPlaceholder p).toList ++ (renderTemplate S s2).toList)
    (fun sg h => hwf sg (by rw [hsegs]; exact List.mem_append_left _ h)) hvals
    (fun q hq _ hqp => hnp1 (hqp ▸ (mem_segParams q s1).mpr hq))]
  rw [replaceFirstL_exact _ _ _
    (by rw [mkPlaceholder_toList]; exact List.cons_ne_nil _ _)]
  rw [renderTemplate_toList_append ((p, v) :: S) s1 (Seg.param p :: s2)]
  rw [renderTemplate_extend p v S s1 (fun hx => hnp1 ((mem_segParams p s1).mpr hx))]
  have hmid2 : (renderTemplate ((p, v) :: S) (Seg.param p :: s2)).toList =
      v.toList ++ (renderTemplate S s2).toList := by
    rw [show renderTemplate ((p, v) :: S) (Seg.param p :: s2) =
        renderSeg ((p, v) :: S) (Seg.param p) ++ renderTemplate ((p, v) :: S) s2 from rfl,
      toList_append,
      show renderSeg ((p, v) :: S) (Seg.param p) = v from by simp [renderSeg, List.lookup],
      renderTemplate_extend p v S s2 (fun hx => hnp2 ((mem_segParams p s2).mpr hx))]
  rw [hmid2]

/-- Hex digits are not braces. -/
theorem hexDigitChar_ne_brace :
    ∀ n, n < 16 → hexDigitChar n ≠ braceOpen ∧ hexDigitChar n ≠ braceClose := by
  decide

/-- Every UTF-8 byte is below 256. -/
theorem utf8Bytes_lt (c : Char) : ∀ b ∈ utf8BytesOfChar c, b < 256 := by
  have hv : c.val.toNat.isValidChar := c.valid
  have hlt : c.toNat < 1114112 := by
    rcases hv with h | h
    · exact Nat.lt_trans h (by norm_num)
    · exact h.2
  intro b hb
  by_cases h1 : c.toNat < 128
  · rw [show utf8BytesOfChar c = [c.toNat] from by simp [utf8BytesOfChar, h1]] at hb
    rw [List.mem_singleton.mp hb]
    omega
  · by_cases h2 : c.toNat < 2048
    · rw [show utf8BytesOfChar c = [192 + c.toNat / 64, 128 + c.toNat % 64] from by
        simp [utf8BytesOfChar, h1, h2]] at hb
      simp only [List.mem_cons, List.not_mem_nil, or_false] at hb
      rcases hb with h | h <;> (subst h; omega)
    · by_cases h3 : c.toNat < 65536
      · rw [show utf8BytesOfChar c =
            [224 + c.toNat / 4096, 128 + (c.toNat / 64) % 64, 128 + c.toNat % 64] from by
          simp [utf8BytesOfChar, h1, h2, h3]] at hb
        simp only [List.mem_cons, List.not_mem_nil, or_false] at hb
        rcases hb with h | h | h <;> (subst h; omega)
      · rw [show utf8BytesOfChar c =
            [240 + c.toNat / 262144, 128 + (c.toNat / 4096) % 64,
              128 + (c.toNat / 64) % 64, 128 + c.toNat % 64] from by
          simp [utf8BytesOfChar, h1, h2, h3]] at hb
        simp only [List.mem_cons, List.not_mem_nil, or_false] at hb
        rcases hb with h | h | h | h <;> (subst h; omega)

/-- Percent-encoding never emits a brace. -/
theorem encodeChar_braceFree (c : Char) :
    ∀ d ∈ encodeChar c, d ≠ braceOpen ∧ d ≠ braceClose := by
  intro d hd
  simp only [encodeChar] at hd
  split at hd
  · rename_i hu
    rw [List.mem_singleton.mp hd]
    constructor
    · intro he
      rw [he] at hu
      exact absurd hu (by decide)
    · intro he
      rw [he] at hu
      exact absurd hu (by decide)
  · have hgen : ∀ bs : List Nat, (∀ b ∈ bs, b < 256) →
        ∀ d2 ∈ bs.foldr
          (fun b acc => '%' :: hexDigitChar (b / 16) :: hexDigitChar (b % 16) :: acc) [],
          d2 ≠ braceOpen ∧ d2 ≠ braceClose := by
      intro bs
      induction bs with
      | nil => intro _ d2 hd2; exact absurd hd2 (List.not_mem_nil d2)
      | cons b bs ih =>
        intro hlt d2 hd2
        simp only [List.foldr_cons, List.mem_cons] at hd2
        rcases hd2 with h | h | h | h
        · subst h
          exact (by decide)
        · subst h
          exact hexDigitChar_ne_brace (b / 16)
            (by have := hlt b (List.mem_cons_self _ _); omega)
        · subst h
          exact hexDigitChar_ne_brace (b % 16) (by omega)
        · exact ih (fun b2 hb2 => hlt b2 (List.mem_cons_of_mem _ hb2)) d2 h
    exact hgen _ (utf8Bytes_lt c) d hd

/-- `encodeURIComponent` output is brace-free. -/
theorem encodeURIComponent_braceFree (s : String) :
    braceFree (encodeURIComponent s) = true := by
  apply List.all_eq_true.mpr
  intro c hc
  have hgen : ∀ l : List Char,
      ∀ c2 ∈ l.foldr (fun c acc => encodeChar c ++ acc) [],
        c2 ≠ braceOpen ∧ c2 ≠ braceClose := by
    intro l
    induction l with
    | nil => intro c2 h; exact absurd h (List.not_mem_nil c2)
    | cons a l ih =>
      intro c2 h
      simp only [List.foldr_cons] at h
      rcases List.mem_append.mp h with h1 | h1
      · exact encodeChar_braceFree a c2 h1
      · exact ih c2 h1
  have h2 := hgen s.toList c hc
  simp only [Bool.and_eq_true, decide_eq_true_eq]
  exact h2

/-- The URL-building loop, started on a rendered template whose unfilled
parameters are all still pending, ends on a rendering whose fill covers
every parameter of the template with brace-free values — provided every
pending parameter has a caller value and names a template placeholder. -/
theorem buildPath_render (args : JValue) (defs : List JValue) (segs : List Seg)
    (h_wf : ∀ sg ∈ segs, segWF sg = true) (h_nodup : (segParams segs).Nodup) :
    ∀ (ps : List String) (S : List (String × String)) (miss : List MissingInput),
      (∀ p2 ∈ ps, Seg.param p2 ∈ segs) →
      (∀ q w, List.lookup q S = some w → braceFree w = true) →
      (∀ p2 ∈ ps, jIsUndefined (jCoalesce (jget args p2) (jget args (sanitizeName p2))) = false) →
      (∀ q, Seg.param q ∈ segs → List.lookup q S = none → q ∈ ps) →
      ∃ S2, (buildPath args defs ps (renderTemplate S segs) miss).fst =
          renderTemplate S2 segs ∧
        (∀ q w, List.lookup q S2 = some w → braceFree w = true) ∧
        (∀ q, Seg.param q ∈ segs → (List.lookup q S2).isSome = true) := by
  intro ps
  induction ps with
  | nil =>
    intro S miss _ hvals _ hrem
    refine ⟨S, rfl, hvals, ?_⟩
    intro q hq
    cases hl : List.lookup q S with
    | none => exact absurd (hrem q hq hl) (List.not_mem_nil q)
    | some w => rfl
  | cons p ps ih =>
    intro S miss hseg hvals hsup hrem
    have hps : jIsUndefined (jCoalesce (jget args p) (jget args (sanitizeName p))) = false :=
      hsup p (List.mem_cons_self _ _)
    have hpseg : Seg.param p ∈ segs := hseg p (List.mem_cons_self _ _)
    have hbp : braceFree p = true := h_wf (Seg.param p) hpseg
    have hstep : buildPath args defs (p :: ps) (renderTemplate S segs) miss =
        buildPath args defs ps
          (jsReplaceFirst (renderTemplate S segs) (mkPlaceholder p)
            (encodeURIComponent (jToString
              (jCoalesce (jget args p) (jget args (sanitizeName p)))))) miss := by
      simp only [buildPath]
      rw [if_neg (by simp [hps])]
    rw [hstep]
    cases hl : List.lookup p S with
    | none =>
      rw [jsReplaceFirst_render p
        (encodeURIComponent (jToString (jCoalesce (jget args p) (jget args (sanitizeName p)))))
        S segs h_wf hvals h_nodup ((mem_segParams p segs).mpr hpseg) hl]
      refine ih ((p, encodeURIComponent (jToString
          (jCoalesce (jget args p) (jget args (sanitizeName p))))) :: S) miss
        (fun p2 hp2 => hseg p2 (List.mem_cons_of_mem _ hp2)) ?_
        (fun q hq => hsup q (List.mem_cons_of_mem _ hq)) ?_
      · intro q w hqw
        by_cases hqp : q = p
        · subst hqp
          rw [show List.lookup q ((q, encodeURIComponent (jToString
              (jCoalesce (jget args q) (jget args (sanitizeName q))))) :: S) =
              some (encodeURIComponent (jToString
                (jCoalesce (jget args q) (jget args (sanitizeName q)))))
              from by simp [List.lookup]] at hqw
          injection hqw with hw
          rw [← hw]
          exact encodeURIComponent_braceFree _
        · rw [lookup_cons_ne q p _ S hqp] at hqw
          exact hvals q w hqw
      · intro q hq hnone
        have hqp : q ≠ p := by
          intro he
          subst he
          rw [show List.lookup q ((q, encodeURIComponent (jToString
              (jCoalesce (jget args q) (jget args (sanitizeName q))))) :: S) =
              some (encodeURIComponent (jToString
                (jCoalesce (jget args q) (jget args (sanitizeName q)))))
              from by simp [List.lookup]] at hnone
          exact Option.noConfusion hnone
        have hnone2 : List.lookup q S = none := by
          rw [lookup_cons_ne q p _ S hqp] at hnone
          exact hnone
        rcases List.mem_cons.mp (hrem q hq hnone2) with h1 | h1
        · exact absurd h1 hqp
        · exact h1
    | some w =>
      have hnp : ∀ q, Seg.param q ∈ segs → List.lookup q S = none → q ≠ p := by
        intro q _ hnone he
        subst he
        rw [hnone] at hl
        exact Option.noConfusion hl
      have hid : jsReplaceFirst (renderTemplate S segs) (mkPlaceholder p)
          (encodeURIComponent (jToString
            (jCoalesce (jget args p) (jget args (sanitizeName p))))) =
          renderTemplate S segs := by
        apply string_eq_of_toList
        have h0 := replaceFirstL_render_skip p
          (encodeURIComponent (jToString
            (jCoalesce (jget args p) (jget args (sanitizeName p))))).toList
          S hbp segs [] h_wf hvals hnp
        simp only [List.append_nil] at h0
        rw [show (jsReplaceFirst (renderTemplate S segs) (mkPlaceholder p)
            (encodeURIComponent (jToString
              (jCoalesce (jget args p) (jget args (sanitizeName p)))))).toList =
            replaceFirstL (mkPlaceholder p).toList
              (encodeURIComponent (jToString
                (jCoalesce (jget args p) (jget args (sanitizeName p))))).toList
              (renderTemplate S segs).toList from rfl]
        rw [h0]
        rw [show replaceFirstL (mkPlaceholder p).toList
            (encodeURIComponent (jToString
              (jCoalesce (jget args p) (jget args (sanitizeName p))))).toList [] = []
            from rfl]
        exact List.append_nil _
      rw [hid]
      refine ih S miss (fun p2 hp2 => hseg p2 (List.mem_cons_of_mem _ hp2)) hvals
        (fun q hq => hsup q (List.mem_cons_of_mem _ hq)) ?_
      intro q hq hnone
      rcases List.mem_cons.mp (hrem q hq hnone) with h1 | h1
      · exact absurd h1 (hnp q hq hnone)
      · exact h1

/-- Characters of the pattern are characters of any string containing it. -/
theorem containsL_chars (pat : List Char) :
    ∀ l, containsL pat l = true → ∀ c ∈ pat, c ∈ l := by
  intro l
  induction l with
  | nil =>
    intro h c hc
    have h2 : pat = [] := by simpa [containsL] using h
    subst h2
    exact absurd hc (List.not_mem_nil c)
  | cons a l ih =>
    intro h c hc
    have h2 := h
    simp only [containsL, Bool.or_eq_true] at h2
    rcases h2 with h3 | h3
    · exact ((isPrefixOfIff _ _).mp h3).sublist.subset hc
    · exact List.mem_cons_of_mem a (ih h3 c hc)

/-- A string without opening braces contains no placeholder. -/
theorem jsIncludes_of_noOpen (url q : String)
    (h : ∀ c ∈ url.toList, c ≠ braceOpen) :
    jsIncludes url (mkPlaceholder q) = false := by
  cases hx : jsIncludes url (mkPlaceholder q) with
  | false => rfl
  | true =>
    have hmem : braceOpen ∈ url.toList :=
      containsL_chars (mkPlaceholder q).toList url.toList hx braceOpen
        (by rw [mkPlaceholder_toList]; exact List.mem_cons_self _ _)
    exact absurd rfl (h braceOpen hmem)

/-- The trailing-slash restore introduces no opening brace. -/
theorem restoreTrailingSlash_noOpen (flag : Bool) (url : String)
    (h : ∀ c ∈ url.toList, c ≠ braceOpen) :
    ∀ c ∈ (restoreTrailingSlash flag url).toList, c ≠ braceOpen := by
  simp only [restoreTrailingSlash]
  split
  · intro c hc
    rw [toList_append] at hc
    rcases List.mem_append.mp hc with h1 | h1
    · exact h c h1
    · rw [List.mem_singleton.mp h1]
      decide
  · exact h

/-- A successful table build implies the readiness flag, whenever any
lookup succeeds. -/
theorem generateFromCurrentOpenApi_ready (srv0 : ServerState) (k : String) (op : Operation)
    (h : (generateFromCurrentOpenApi srv0).operationMap.lookup k = some op) :
    (generateFromCurrentOpenApi srv0).isReady = true := by
  by_cases hc : ¬ jTruthy srv0.openApi = true
  · simp only [generateFromCurrentOpenApi] at h
    rw [if_pos hc] at h
    simp at h
  · simp only [generateFromCurrentOpenApi]
    rw [if_neg hc]

/-! ## Claim theorems -/

/-- C2: a required input other than `api_token` absent from the caller
arguments (a declared path parameter, a required query or header parameter,
or a required body) makes the dispatcher return the non-error elicitation
response listing the missing inputs by sanitized name with description and
schema, with no upstream request and no authentication exchange; the
`api_token` name itself is never in that list. -/
theorem missing_inputs_elicited
    (srv : ServerState) (name : String) (args : JValue) (o : Oracle) (op : Operation)
    (h_ready : srv.isReady = true)
    (h_nosc : ¬ ((proxyUpdateValue args).isSome ∧ name = "getProxyUsers"))
    (h_lookup : srv.operationMap.lookup name = some op)
    (h_missing :
      (∃ p, p ∈ op.pathParams ∧
        jIsUndefined (jCoalesce (jget (opArgsOrEmpty args) p)
          (jget (opArgsOrEmpty args) (sanitizeName p))) = true ∧
        sanitizeName p ≠ "api_token") ∨
      (∃ q, q ∈ op.queryParams ∧
        jIsUndefined (jCoalesce (jget (opArgsOrEmpty args) q)
          (jget (opArgsOrEmpty args) (sanitizeName q))) = true ∧
        jTruthy (jget ((op.queryParamDefs.find?
          (fun pd => jIsStr (jget pd "name") q)).getD .vUndefined) "required") = true ∧
        sanitizeName q ≠ "api_token") ∨
      (∃ hd, hd ∈ op.headerParams ∧ hd ≠ "x-access-token" ∧
        jIsUndefined (jCoalesce (jget (opArgsOrEmpty args) hd)
          (jget (opArgsOrEmpty args) (sanitizeName hd))) = true ∧
        jTruthy (jget ((op.headerParamDefs.find?
          (fun pd => jIsStr (jget pd "name") hd)).getD .vUndefined) "required") = true ∧
        sanitizeName hd ≠ "api_token") ∨
      (op.bodyRequired = true ∧ jIsUndefined (jget (opArgsOrEmpty args) "body") = true)) :
    (callToolHandler srv name args o).outcome =
      .elicitation ((opFilteredMissing op args (postProxyClient srv args) o).map
        (fun mi => ⟨mi.name, mi.description, mi.schema⟩)) ∧
    opFilteredMissing op args (postProxyClient srv args) o ≠ [] ∧
    (∀ mi, mi ∈ opFilteredMissing op args (postProxyClient srv args) o →
      mi.name ≠ "api_token") ∧
    (callToolHandler srv name args o).issued = none ∧
    (callToolHandler srv name args o).authExchanges = 0 := by
  have hx : ∃ mi, mi ∈ opMissingInputs op args (postProxyClient srv args) o ∧
      mi.name ≠ "api_token" := by
    rcases h_missing with ⟨p, hmem, habs, hname⟩ | ⟨q, hmem, habs, hreq, hname⟩ |
      ⟨hd, hmem, hne, habs, hreq, hname⟩ | ⟨hbody, habs⟩
    · obtain ⟨mi, hmi, hn, _⟩ := buildPath_miss_mem (opArgsOrEmpty args) op.pathParamDefs
        op.pathParams op.path [] p hmem habs
      refine ⟨mi, opMissingInputs_sub op args _ o mi ?_, by rw [hn]; exact hname⟩
      exact buildHeaders_miss_sub (opArgsOrEmpty args) op.headerParamDefs o
        op.headerParams _ mi
        (buildQuery_miss_sub (opArgsOrEmpty args) op.queryParamDefs op.queryParams [] _ mi hmi)
    · obtain ⟨mi, hmi, hn, _⟩ := buildQuery_miss_mem (opArgsOrEmpty args) op.queryParamDefs
        op.queryParams [] (opUrlStage op args).snd q hmem habs hreq
      refine ⟨mi, opMissingInputs_sub op args _ o mi ?_, by rw [hn]; exact hname⟩
      exact buildHeaders_miss_sub (opArgsOrEmpty args) op.headerParamDefs o
        op.headerParams _ mi hmi
    · obtain ⟨mi, hmi, hn, _⟩ := buildHeaders_miss_mem (opArgsOrEmpty args)
        op.headerParamDefs o op.headerParams
        ⟨[], (opQueryStage op args).snd, postProxyClient srv args, 0⟩ hd hmem hne habs hreq
      exact ⟨mi, opMissingInputs_sub op args _ o mi hmi, by rw [hn]; exact hname⟩
    · refine ⟨bodyMissingEntry op, ?_, by simp [bodyMissingEntry]⟩
      simp only [opMissingInputs]
      rw [if_pos ⟨hbody, habs⟩]
      exact List.mem_append_right _ (List.mem_singleton.mpr rfl)
  obtain ⟨mi, hmi, hname⟩ := hx
  have hmf : mi ∈ opFilteredMissing op args (postProxyClient srv args) o := by
    simp only [opFilteredMissing]
    exact List.mem_filter.mpr ⟨hmi, by simpa using hname⟩
  have hne : opFilteredMissing op args (postProxyClient srv args) o ≠ [] :=
    List.ne_nil_of_mem hmf
  rw [callToolHandler_eq_dispatchOp srv name args o op h_ready h_nosc h_lookup]
  cases hl : opFilteredMissing op args (postProxyClient srv args) o with
  | nil => exact absurd hl hne
  | cons mi0 ms =>
    rw [dispatchOp_elicit srv op args _ o mi0 ms hl]
    exact ⟨rfl, List.cons_ne_nil mi0 ms,
      fun mi2 h2 => opFilteredMissing_names op args _ o mi2 (hl.symm ▸ h2), rfl, rfl⟩

/-- C2 witness: the fixture search operation with its required query
parameter absent elicits it and issues nothing. -/
theorem missing_inputs_elicited_witness :
    (callToolHandler mainServer "searchCatalogItems" (.vObj []) okOracle).outcome =
      .elicitation ((opFilteredMissing opSearch (.vObj [])
        (postProxyClient mainServer (.vObj [])) okOracle).map
          (fun mi => ⟨mi.name, mi.description, mi.schema⟩)) ∧
    opFilteredMissing opSearch (.vObj []) (postProxyClient mainServer (.vObj [])) okOracle ≠ [] ∧
    (∀ mi, mi ∈ opFilteredMissing opSearch (.vObj [])
      (postProxyClient mainServer (.vObj [])) okOracle → mi.name ≠ "api_token") ∧
    (callToolHandler mainServer "searchCatalogItems" (.vObj []) okOracle).issued = none ∧
    (callToolHandler mainServer "searchCatalogItems" (.vObj []) okOracle).authExchanges = 0 :=
  missing_inputs_elicited mainServer "searchCatalogItems" (.vObj []) okOracle opSearch
    rfl (by decide) rfl
    (Or.inr (Or.inl ⟨"q", by decide, rfl, rfl, by decide⟩))

/-- C3: when the first security requirement group resolves to HTTP Bearer
(no basic-style scheme present), the attached token follows the priority
caller `api_token` argument, else cached session token, else one minted by
exactly one authentication exchange; with no cached token and no argument
exactly one exchange happens before the upstream call, with a cached token
and no argument zero exchanges happen, and a falsy minted token is the
terminal missing-bearer-token error. -/
theorem bearer_token_resolution
    (srv : ServerState) (name : String) (args : JValue) (o : Oracle)
    (op : Operation) (req0 : JValue) (rest : List JValue) (sn : String)
    (h_ready : srv.isReady = true)
    (h_nosc : ¬ ((proxyUpdateValue args).isSome ∧ name = "getProxyUsers"))
    (h_lookup : srv.operationMap.lookup name = some op)
    (h_sec : op.security = .vArr (req0 :: rest))
    (h_nobasic : (jKeys req0).any (isBasicSchemeName srv.openApi) = false)
    (h_bearer : (jKeys req0).find? (isBearerSchemeName srv.openApi) = some sn)
    (h_nomiss : opFilteredMissing op args (postProxyClient srv args) o = []) :
    (jTruthy (jget (opArgsOrEmpty args) "api_token") = true →
      (callToolHandler srv name args o).authExchanges = 0 ∧
      (callToolHandler srv name args o).issued.isSome = true ∧
      ∀ req, (callToolHandler srv name args o).issued = some req →
        lookupKey req.headers "Authorization" =
          some (.vStr ("Bearer " ++ jToString (jget (opArgsOrEmpty args) "api_token")))) ∧
    (jTruthy (jget (opArgsOrEmpty args) "api_token") = false →
      jTruthy srv.client.apiToken = true →
      (callToolHandler srv name args o).authExchanges = 0 ∧
      (callToolHandler srv name args o).issued.isSome = true ∧
      ∀ req, (callToolHandler srv name args o).issued = some req →
        lookupKey req.headers "Authorization" =
          some (.vStr ("Bearer " ++ jToString srv.client.apiToken))) ∧
    (jTruthy (jget (opArgsOrEmpty args) "api_token") = false →
      jTruthy srv.client.apiToken = false →
      (callToolHandler srv name args o).authExchanges = 1 ∧
      (∀ t, o.tokenFetch = .ok t → jTruthy t = true →
        (callToolHandler srv name args o).issued.isSome = true ∧
        (callToolHandler srv name args o).client.apiToken = t ∧
        ∀ req, (callToolHandler srv name args o).issued = some req →
          lookupKey req.headers "Authorization" =
            some (.vStr ("Bearer " ++ jToString t))) ∧
      (∀ t, o.tokenFetch = .ok t → jTruthy t = false →
        (callToolHandler srv name args o).outcome =
          .errorResult "Error: Missing bearer token (api_token)" ∧
        (callToolHandler srv name args o).issued = none)) := by
  rw [callToolHandler_eq_dispatchOp srv name args o op h_ready h_nosc h_lookup]
  obtain ⟨t0, ht⟩ := opHeaderStage_client op args (postProxyClient srv args) o
  have hTokEq : (opHeaderStage op args (postProxyClient srv args) o).client.apiToken =
      srv.client.apiToken := by
    rw [ht]
    exact (postProxyClient_fields srv args).2.2.1
  refine ⟨fun h_arg => ?_, fun h_arg h_cached => ?_, fun h_arg h_cached => ?_⟩
  · have hra := resolveAuth_bearer_arg srv.openApi op (opArgsOrEmpty args)
      (opHeaderStage op args (postProxyClient srv args) o).headers
      (opHeaderStage op args (postProxyClient srv args) o).client o req0 rest sn
      h_sec h_nobasic h_bearer h_arg
    rw [dispatchOp_ok_auth srv op args _ o _ _ _ h_nomiss hra]
    exact ⟨rfl, rfl, fun req h => by
      injection h with h2
      rw [← h2]
      exact lookupKey_jsetKey_self _ _ _⟩
  · have h2 : jTruthy (opHeaderStage op args (postProxyClient srv args) o).client.apiToken
        = true := by rw [hTokEq]; exact h_cached
    have hrb := resolveAuth_bearer_cached srv.openApi op (opArgsOrEmpty args)
      (opHeaderStage op args (postProxyClient srv args) o).headers
      (opHeaderStage op args (postProxyClient srv args) o).client o req0 rest sn
      h_sec h_nobasic h_bearer h_arg h2
    rw [dispatchOp_ok_auth srv op args _ o _ _ _ h_nomiss hrb]
    refine ⟨rfl, rfl, fun req h => ?_⟩
    injection h with h2
    rw [← h2]
    simp only []
    rw [hTokEq] at *
    exact lookupKey_jsetKey_self _ _ _
  · have h2 : jTruthy (opHeaderStage op args (postProxyClient srv args) o).client.apiToken
        = false := by rw [hTokEq]; exact h_cached
    cases htf : o.tokenFetch with
    | error e =>
      have hre := resolveAuth_bearer_mint_err srv.openApi op (opArgsOrEmpty args)
        (opHeaderStage op args (postProxyClient srv args) o).headers
        (opHeaderStage op args (postProxyClient srv args) o).client o req0 rest sn e
        h_sec h_nobasic h_bearer h_arg h2 htf
      rw [dispatchOp_err_auth srv op args _ o _ _ _ h_nomiss hre]
      exact ⟨rfl, fun t h _ => Except.noConfusion h, fun t h _ => Except.noConfusion h⟩
    | ok t =>
      cases hjt : jTruthy t with
      | true =>
        have hro := resolveAuth_bearer_mint_ok srv.openApi op (opArgsOrEmpty args)
          (opHeaderStage op args (postProxyClient srv args) o).headers
          (opHeaderStage op args (postProxyClient srv args) o).client o req0 rest sn t
          h_sec h_nobasic h_bearer h_arg h2 htf hjt
        rw [dispatchOp_ok_auth srv op args _ o _ _ _ h_nomiss hro]
        refine ⟨rfl, fun t2 h ht2 => ?_, fun t2 h ht2 => ?_⟩
        · injection h with h3
          subst h3
          exact ⟨rfl, rfl, fun req hq => by
            injection hq with h4
            rw [← h4]
            exact lookupKey_jsetKey_self _ _ _⟩
        · injection h with h3
          subst h3
          rw [hjt] at ht2
          exact Bool.noConfusion ht2
      | false =>
        have hrf := resolveAuth_bearer_mint_falsy srv.openApi op (opArgsOrEmpty args)
          (opHeaderStage op args (postProxyClient srv args) o).headers
          (opHeaderStage op args (postProxyClient srv args) o).client o req0 rest sn t
          h_sec h_nobasic h_bearer h_arg h2 htf hjt
        rw [dispatchOp_err_auth srv op args _ o _ _ _ h_nomiss hrf]
        refine ⟨rfl, fun t2 h ht2 => ?_, fun t2 h ht2 => ⟨rfl, rfl⟩⟩
        injection h with h3
        subst h3
        rw [hjt] at ht2
        exact Bool.noConfusion ht2

/-- C10: whenever the arguments carry a `proxy_user_id` string that is
non-empty after trimming, the session's delegated-user field ends the call
set to the trimmed value — for every tool name, including one absent from
the operation table (whose call fails), so failed calls are not atomic with
respect to this session field. -/
theorem proxy_user_update_persists_on_failure
    (srv : ServerState) (name : String) (args : JValue) (o : Oracle) (s : String)
    (h_ready : srv.isReady = true)
    (h_arg : jget args "proxy_user_id" = .vStr s)
    (h_nonempty : jsTrim s ≠ "") :
    (callToolHandler srv name args o).client.proxyUserId = some (jsTrim s) := by
  have hpv := proxyUpdateValue_eq args s h_arg h_nonempty
  simp only [callToolHandler, postProxyClient, hpv]
  rw [if_neg (by simp [h_ready])]
  split
  · rfl
  · split
    · rfl
    · rename_i op _
      obtain ⟨t, u, hc⟩ := dispatchOp_client srv op args
        { srv.client with proxyUserId := some (jsTrim s) } o
      rw [hc]

/-- C10 witness: a call naming an unknown tool still records the trimmed
delegated user although the handler fails. -/
theorem proxy_user_update_persists_on_failure_witness :
    mainServer.isReady = true ∧
    jget (.vObj [("proxy_user_id", .vStr " p1 ")]) "proxy_user_id" = .vStr " p1 " ∧
    jsTrim " p1 " ≠ "" ∧
    (callToolHandler mainServer "doesNotExist"
      (.vObj [("proxy_user_id", .vStr " p1 ")]) okOracle).client.proxyUserId = some "p1" :=
  ⟨rfl, rfl, by decide,
    proxy_user_update_persists_on_failure mainServer "doesNotExist"
      (.vObj [("proxy_user_id", .vStr " p1 ")]) okOracle " p1 " rfl rfl (by decide)⟩

/-- C8 counterexample: invoking `getProxyUsers` with the non-empty string
`" abc "` does short-circuit, but the delegated-user field is set to the
trimmed `"abc"`, not to the supplied value `" abc "` as the claim states. -/
theorem proxy_confirmation_counterexample :
    (callToolHandler mainServer "getProxyUsers"
      (.vObj [("proxy_user_id", .vStr " abc ")]) okOracle).client.proxyUserId = some "abc" ∧
    (callToolHandler mainServer "getProxyUsers"
      (.vObj [("proxy_user_id", .vStr " abc ")]) okOracle).client.proxyUserId ≠
      some " abc " := by
  constructor
  · rfl
  · intro h
    rw [show (callToolHandler mainServer "getProxyUsers"
        (.vObj [("proxy_user_id", .vStr " abc ")]) okOracle).client.proxyUserId =
        some "abc" from rfl] at h
    simp at h

/-- C8 (amended): invoking `getProxyUsers` with a `proxy_user_id` string
that is non-empty after trimming updates the delegated-user field to the
trimmed value before the rest of dispatch and returns the confirmation
without any upstream exchange or request. -/
theorem proxy_confirmation_short_circuit
    (srv : ServerState) (args : JValue) (o : Oracle) (s : String)
    (h_ready : srv.isReady = true)
    (h_arg : jget args "proxy_user_id" = .vStr s)
    (h_nonempty : jsTrim s ≠ "") :
    callToolHandler srv "getProxyUsers" args o =
      ⟨.proxyConfirmation (jsTrim s),
        { srv.client with proxyUserId := some (jsTrim s) }, 0, 0, none⟩ := by
  have hpv := proxyUpdateValue_eq args s h_arg h_nonempty
  simp only [callToolHandler, postProxyClient, hpv]
  rw [if_neg (by simp [h_ready]), if_pos (by simp)]
  rfl

/-- C8 witness: the amended short-circuit at a concrete input. -/
theorem proxy_confirmation_short_circuit_witness :
    mainServer.isReady = true ∧
    jget (.vObj [("proxy_user_id", .vStr "42")]) "proxy_user_id" = .vStr "42" ∧
    jsTrim "42" ≠ "" ∧
    callToolHandler mainServer "getProxyUsers" (.vObj [("proxy_user_id", .vStr "42")])
      okOracle =
      ⟨.proxyConfirmation "42", { mainServer.client with proxyUserId := some "42" }, 0, 0,
        none⟩ :=
  ⟨rfl, rfl, by decide,
    proxy_confirmation_short_circuit mainServer (.vObj [("proxy_user_id", .vStr "42")])
      okOracle "42" rfl rfl (by decide)⟩

/-- C5: an unknown tool name throws `Unknown tool: <name>`, but the catch
block then dereferences the still-null `op` while building the diagnostic
request details, so the handler raises a TypeError instead of returning the
error-flagged result containing the tool name that the claim (and the
code's own catch block) intend. -/
theorem unknown_tool_catch_block_crashes :
    (callToolHandler mainServer "doesNotExist" (.vObj []) okOracle).outcome =
      .handlerException "TypeError: Cannot read properties of null (reading method)" ∧
    (callToolHandler mainServer "doesNotExist" (.vObj []) okOracle).issued = none ∧
    ∀ m, (callToolHandler mainServer "doesNotExist" (.vObj []) okOracle).outcome ≠
      .errorResult m := by
  refine ⟨rfl, rfl, fun m h => ?_⟩
  rw [show (callToolHandler mainServer "doesNotExist" (.vObj []) okOracle).outcome =
    .handlerException "TypeError: Cannot read properties of null (reading method)"
    from rfl] at h
  exact CallOutcome.noConfusion h

/-- C4: when the first security requirement group contains a basic-style
scheme, the issued request never carries any `Authorization` header (even
with an `api_token` argument among `args`), HTTP Basic credentials are used
instead, and no bearer resolution (hence no exchange) happens. -/
theorem basic_auth_never_bearer
    (srv : ServerState) (name : String) (args : JValue) (o : Oracle)
    (op : Operation) (req0 : JValue) (rest : List JValue)
    (h_ready : srv.isReady = true)
    (h_nosc : ¬ ((proxyUpdateValue args).isSome ∧ name = "getProxyUsers"))
    (h_lookup : srv.operationMap.lookup name = some op)
    (h_sec : op.security = .vArr (req0 :: rest))
    (h_basic : (jKeys req0).any (isBasicSchemeName srv.openApi) = true) :
    (callToolHandler srv name args o).authExchanges = 0 ∧
    ∀ req, (callToolHandler srv name args o).issued = some req →
      lookupKey req.headers "Authorization" = none ∧
      req.auth = some (srv.client.username, srv.client.password) := by
  rw [callToolHandler_eq_dispatchOp srv name args o op h_ready h_nosc h_lookup]
  obtain ⟨t, ht⟩ := opHeaderStage_client op args (postProxyClient srv args) o
  obtain ⟨hu, hp, _, _⟩ := postProxyClient_fields srv args
  have hba := resolveAuth_basic srv.openApi op (opArgsOrEmpty args)
    (opHeaderStage op args (postProxyClient srv args) o).headers
    (opHeaderStage op args (postProxyClient srv args) o).client o req0 rest h_sec h_basic
  simp only [dispatchOp, hba]
  split
  · exact ⟨rfl, fun req h => Option.noConfusion h⟩
  · split
    · exact ⟨rfl, fun req h => Option.noConfusion h⟩
    · refine ⟨?_, fun req h => ?_⟩
      · split <;> rfl
      · have hreq : req = ⟨op.method, opFinalUrl op args,
          (if (opQueryStage op args).fst.isEmpty then none else some (opQueryStage op args).fst),
          jget (opArgsOrEmpty args) "body",
          jdelKey (opHeaderStage op args (postProxyClient srv args) o).headers "Authorization",
          some ((opHeaderStage op args (postProxyClient srv args) o).client.username,
            (opHeaderStage op args (postProxyClient srv args) o).client.password)⟩ := by
          split at h <;> (injection h with h2; rw [← h2]; simp)
        rw [hreq]
        refine ⟨lookupKey_jdelKey_self _ _, ?_⟩
        rw [ht]
        simp only []
        rw [hu, hp]

/-- C7: for an operation declaring the `x-access-token` header with no
caller-supplied value, a truthy cached vendor token is used with no fetch;
with no cached token one lazy fetch obtains, caches and uses the vendor
token as the header value; and when that fetch fails the old `null` value
is written instead, so the header is absent from the wire request, no
missing input is recorded for it, and no error arises from the failure. -/
theorem x_access_token_fallback
    (srv : ServerState) (name : String) (args : JValue) (o : Oracle) (op : Operation)
    (h_ready : srv.isReady = true)
    (h_nosc : ¬ ((proxyUpdateValue args).isSome ∧ name = "getProxyUsers"))
    (h_lookup : srv.operationMap.lookup name = some op)
    (h_hdr : "x-access-token" ∈ op.headerParams)
    (h_unique : ∀ hd, hd ∈ op.headerParams →
      sanitizeName hd = sanitizeName "x-access-token" → hd = "x-access-token")
    (h_noval : jCoalesce (jget (opArgsOrEmpty args) "x-access-token")
      (jget (opArgsOrEmpty args) (sanitizeName "x-access-token")) = .vUndefined) :
    (jTruthy srv.client.amazonAccessToken = true →
      (callToolHandler srv name args o).amazonFetches = 0 ∧
      lookupKey (opHeaderStage op args (postProxyClient srv args) o).headers
        "x-access-token" = some srv.client.amazonAccessToken) ∧
    (∀ t, srv.client.amazonAccessToken = .vNull → o.amazonFetch = .ok t →
      jTruthy t = true →
      lookupKey (opHeaderStage op args (postProxyClient srv args) o).headers
        "x-access-token" = some t ∧
      (opHeaderStage op args (postProxyClient srv args) o).client.amazonAccessToken = t) ∧
    (∀ e, srv.client.amazonAccessToken = .vNull → o.amazonFetch = .error e →
      lookupKey (opHeaderStage op args (postProxyClient srv args) o).headers
        "x-access-token" = some .vNull ∧
      (opHeaderStage op args (postProxyClient srv args) o).client.amazonAccessToken =
        .vNull ∧
      (∀ mi, mi ∈ (opHeaderStage op args (postProxyClient srv args) o).miss →
        mi ∈ (opQueryStage op args).snd ∨ mi.name ≠ sanitizeName "x-access-token") ∧
      ∀ req, (callToolHandler srv name args o).issued = some req →
        wireHeaderValue req.headers "x-access-token" = none) := by
  have hred := callToolHandler_eq_dispatchOp srv name args o op h_ready h_nosc h_lookup
  have hcc := (postProxyClient_fields srv args).2.2.2
  refine ⟨fun hC => ?_, fun t hnull hf ht => ?_, fun e hnull hf => ?_⟩
  · obtain ⟨h1, h2, h3⟩ := buildHeaders_xat_cached (opArgsOrEmpty args)
      op.headerParamDefs o srv.client.amazonAccessToken hC h_noval op.headerParams
      ⟨[], (opQueryStage op args).snd, postProxyClient srv args, 0⟩ hcc (Or.inl h_hdr)
    exact ⟨by rw [hred, dispatchOp_fetches]; exact h2, h1⟩
  · exact buildHeaders_xat_fetch_ok (opArgsOrEmpty args) op.headerParamDefs o t ht
      h_noval hf op.headerParams
      ⟨[], (opQueryStage op args).snd, postProxyClient srv args, 0⟩
      (by rw [hcc, hnull]; rfl) h_hdr
  · obtain ⟨h1, h2, h3⟩ := buildHeaders_xat_fetch_err (opArgsOrEmpty args)
      op.headerParamDefs o e h_noval hf op.headerParams
      ⟨[], (opQueryStage op args).snd, postProxyClient srv args, 0⟩
      (by rw [hcc]; exact hnull) (Or.inl h_hdr)
    refine ⟨h1, h2, fun mi hm => ?_, fun req hq => ?_⟩
    · rcases h3 mi hm with hin | ⟨hd2, hmem2, hne2, hnm2⟩
      · exact Or.inl hin
      · refine Or.inr (fun hc => hne2 (h_unique hd2 hmem2 ?_))
        rw [hnm2] at hc
        exact hc
    · rw [hred] at hq
      have hl := dispatchOp_issued_headers srv op args (postProxyClient srv args) o
        "x-access-token" (by decide) req hq
      simp only [wireHeaderValue]
      rw [hl, show lookupKey (opHeaderStage op args (postProxyClient srv args) o).headers
        "x-access-token" = some JValue.vNull from h1]
      rfl

/-- C7 witness: the fixture search operation with a failing vendor-token
fetch still issues its request, with the header absent from the wire. -/
theorem x_access_token_fallback_witness :
    lookupKey (opHeaderStage opSearch (.vObj [("q", .vStr "laptop")])
      (postProxyClient mainServer (.vObj [("q", .vStr "laptop")]))
      ⟨.ok .vNull, .error "boom", .ok (.vStr "payload")⟩).headers "x-access-token" =
      some .vNull ∧
    (opHeaderStage opSearch (.vObj [("q", .vStr "laptop")])
      (postProxyClient mainServer (.vObj [("q", .vStr "laptop")]))
      ⟨.ok .vNull, .error "boom", .ok (.vStr "payload")⟩).client.amazonAccessToken =
      .vNull ∧
    (∀ mi, mi ∈ (opHeaderStage opSearch (.vObj [("q", .vStr "laptop")])
      (postProxyClient mainServer (.vObj [("q", .vStr "laptop")]))
      ⟨.ok .vNull, .error "boom", .ok (.vStr "payload")⟩).miss →
      mi ∈ (opQueryStage opSearch (.vObj [("q", .vStr "laptop")])).snd ∨
        mi.name ≠ sanitizeName "x-access-token") ∧
    ∀ req, (callToolHandler mainServer "searchCatalogItems"
      (.vObj [("q", .vStr "laptop")])
      ⟨.ok .vNull, .error "boom", .ok (.vStr "payload")⟩).issued = some req →
      wireHeaderValue req.headers "x-access-token" = none :=
  (x_access_token_fallback mainServer "searchCatalogItems"
    (.vObj [("q", .vStr "laptop")]) ⟨.ok .vNull, .error "boom", .ok (.vStr "payload")⟩
    opSearch rfl (by decide) rfl (by decide) (by decide) rfl).2.2 "boom" rfl rfl

/-- C4 witness: the fixture basic-auth operation invoked with an
`api_token` argument still issues a request without any `Authorization`
header and with HTTP Basic credentials. -/
theorem basic_auth_never_bearer_witness :
    (callToolHandler mainServer "getApiToken"
      (.vObj [("api_token", .vStr "T")]) okOracle).authExchanges = 0 ∧
    ∀ req, (callToolHandler mainServer "getApiToken"
      (.vObj [("api_token", .vStr "T")]) okOracle).issued = some req →
      lookupKey req.headers "Authorization" = none ∧
      req.auth = some (mainServer.client.username, mainServer.client.password) :=
  basic_auth_never_bearer mainServer "getApiToken" (.vObj [("api_token", .vStr "T")])
    okOracle opToken (.vObj [("basic_auth", .vArr [])]) [] rfl (by decide) rfl rfl rfl

/-- C3 witness: with no cached token and no argument the fixture bearer
operation performs exactly one exchange and caches the minted token; with a
cached token it performs none. -/
theorem bearer_token_resolution_witness :
    (callToolHandler mainServer "getWidget" (.vObj [("id", .vStr "7")])
      okOracle).authExchanges = 1 ∧
    (callToolHandler mainServer "getWidget" (.vObj [("id", .vStr "7")])
      okOracle).client.apiToken = .vStr "tok123" ∧
    (callToolHandler { mainServer with client := { initClient with apiToken := .vStr "C" } }
      "getWidget" (.vObj [("id", .vStr "7")]) okOracle).authExchanges = 0 := by
  have h1 := bearer_token_resolution mainServer "getWidget" (.vObj [("id", .vStr "7")])
    okOracle opWidget (.vObj [("bearer_auth", .vArr [])]) [] "bearer_auth"
    rfl (by decide) rfl rfl rfl rfl rfl
  have h2 := bearer_token_resolution
    { mainServer with client := { initClient with apiToken := .vStr "C" } }
    "getWidget" (.vObj [("id", .vStr "7")]) okOracle opWidget
    (.vObj [("bearer_auth", .vArr [])]) [] "bearer_auth"
    rfl (by decide) rfl rfl rfl rfl rfl
  exact ⟨(h1.2.2 rfl rfl).1, ((h1.2.2 rfl rfl).2.1 (.vStr "tok123") rfl rfl).2.1,
    (h2.2.1 rfl rfl).1⟩

/-- C6: every operation compiled by the generator whose stored template
ends with a trailing slash — or is the special-cased `/account` +
`getProxyUsers` pair, whose flag the compiler forces — produces, when it is
dispatched, a final request URL that again ends with a trailing slash: the
recorded flag restores the slash that placeholder substitution operates
without. -/
theorem trailing_slash_preserved
    (srv0 : ServerState) (name : String) (args : JValue) (o : Oracle) (op : Operation)
    (h_nosc : ¬ ((proxyUpdateValue args).isSome ∧ name = "getProxyUsers"))
    (h_lookup : (generateFromCurrentOpenApi srv0).operationMap.lookup name = some op)
    (h_slash : jsEndsWith op.path "/" = true ∨ (op.path = "/account" ∧ name = "getProxyUsers")) :
    ∀ req, (callToolHandler (generateFromCurrentOpenApi srv0) name args o).issued = some req →
      jsEndsWith req.url "/" = true := by
  intro req hq
  have h_ready := generateFromCurrentOpenApi_ready srv0 name op h_lookup
  rw [callToolHandler_eq_dispatchOp (generateFromCurrentOpenApi srv0) name args o op
    h_ready h_nosc h_lookup] at hq
  have hurl := dispatchOp_issued_url (generateFromCurrentOpenApi srv0) op args
    (postProxyClient (generateFromCurrentOpenApi srv0) args) o req hq
  have hflag := generateFromCurrentOpenApi_flag srv0 name op h_lookup h_slash
  rw [hurl]
  simp only [opFinalUrl]
  rw [hflag]
  exact restoreTrailingSlash_flag (opUrlStage op args).fst

/-- C6 witness: `getProxyUsers` compiled from the sample document (stored
path `/account`, flag forced) is dispatched without a proxy argument and
the issued URL ends with the restored trailing slash. -/
theorem trailing_slash_preserved_witness :
    (callToolHandler genServer "getProxyUsers" (.vObj []) okOracle).issued =
      some ⟨"GET", "/account/", none, .vUndefined, [], none⟩ ∧
    ∀ req, (callToolHandler genServer "getProxyUsers" (.vObj []) okOracle).issued = some req →
      jsEndsWith req.url "/" = true :=
  ⟨rfl, trailing_slash_preserved srvSeed "getProxyUsers" (.vObj []) okOracle gpOp
    (by decide) rfl (Or.inr ⟨rfl, rfl⟩)⟩

/-- C9 counterexample: handed a filesystem path as the specification
source, the loader attempts nothing — even though the document would have
been loadable — and the readiness flag is never set, leaving the server
answering "still loading" forever. -/
theorem loader_file_source_counterexample :
    (loadOpenApiAndGenerateTools notReadySeed (some "./openapi.json")
      (.ok (.ok sampleDoc))).fst.isReady = false ∧
    (loadOpenApiAndGenerateTools notReadySeed (some "./openapi.json")
      (.ok (.ok sampleDoc))).snd = false ∧
    (loadOpenApiAndGenerateTools notReadySeed (some "./openapi.json")
      (.ok (.ok sampleDoc))).fst = notReadySeed :=
  ⟨rfl, rfl, rfl⟩

/-- C9 (amended): the loader handles only URL specification sources.  A
blob URL short-circuits to empty tables with the readiness flag set and no
fetch attempted; an http(s) URL is fetched, a fetch or parse failure clears
the tables and still sets the readiness flag, and a parsed document is
handed to the generator, which sets the readiness flag whenever the
document is truthy.  Any other source — a filesystem path, the empty
string, or an unset variable — is ignored outright: no load is attempted,
the state is returned untouched, and the readiness flag is never set. -/
theorem loader_url_sources_only
    (srv : ServerState) (s : String) (fetch : Except String (Except String JValue)) :
    (loadOpenApiAndGenerateTools srv none fetch = (srv, false)) ∧
    (¬ (s ≠ "" ∧ (isHttpUrlSource s = true ∨ isBlobUrlSource s = true)) →
      loadOpenApiAndGenerateTools srv (some s) fetch = (srv, false)) ∧
    (s ≠ "" → isBlobUrlSource s = true →
      loadOpenApiAndGenerateTools srv (some s) fetch =
        ({ srv with openApi := .vNull, generatedTools := [], operationMap := [], isReady := true }, false)) ∧
    (s ≠ "" → isHttpUrlSource s = true → isBlobUrlSource s = false →
      (∀ e, fetch = .error e →
        loadOpenApiAndGenerateTools srv (some s) fetch =
          ({ srv with openApi := .vNull, generatedTools := [], operationMap := [], isReady := true }, true)) ∧
      (∀ e, fetch = .ok (.error e) →
        loadOpenApiAndGenerateTools srv (some s) fetch =
          ({ srv with openApi := .vNull, generatedTools := [], operationMap := [], isReady := true }, true)) ∧
      (∀ doc, fetch = .ok (.ok doc) →
        loadOpenApiAndGenerateTools srv (some s) fetch =
          (generateFromCurrentOpenApi
            { srv with openApi := doc, generatedTools := [], operationMap := [] }, true) ∧
        (jTruthy doc = true →
          (loadOpenApiAndGenerateTools srv (some s) fetch).fst.isReady = true))) := by
  refine ⟨rfl, ?_, ?_, ?_⟩
  · intro h
    simp only [loadOpenApiAndGenerateTools]
    rw [if_neg h]
  · intro hne hblob
    simp only [loadOpenApiAndGenerateTools]
    rw [if_pos ⟨hne, Or.inr hblob⟩, if_pos hblob]
  · intro hne hhttp hblob
    refine ⟨?_, ?_, ?_⟩
    · intro e he
      simp only [loadOpenApiAndGenerateTools]
      rw [if_pos ⟨hne, Or.inl hhttp⟩, if_neg (by simp [hblob]), he]
    · intro e he
      simp only [loadOpenApiAndGenerateTools]
      rw [if_pos ⟨hne, Or.inl hhttp⟩, if_neg (by simp [hblob]), he]
    · intro doc hdoc
      constructor
      · simp only [loadOpenApiAndGenerateTools]
        rw [if_pos ⟨hne, Or.inl hhttp⟩, if_neg (by simp [hblob]), hdoc]
      · intro htruthy
        simp only [loadOpenApiAndGenerateTools]
        rw [if_pos ⟨hne, Or.inl hhttp⟩, if_neg (by simp [hblob]), hdoc]
        simp only [generateFromCurrentOpenApi]
        rw [if_neg (not_not_intro htruthy)]

/-- C9 witness: an http URL whose fetch fails still flips readiness with
empty tables, and a filesystem path is ignored with the state unchanged. -/
theorem loader_url_sources_only_witness :
    loadOpenApiAndGenerateTools notReadySeed (some "https://x.example/spec.json")
      (.error "boom") =
      ({ notReadySeed with openApi := .vNull, generatedTools := [], operationMap := [], isReady := true }, true) ∧
    loadOpenApiAndGenerateTools notReadySeed (some "./openapi.json") (.error "boom") =
      (notReadySeed, false) :=
  ⟨((loader_url_sources_only notReadySeed "https://x.example/spec.json"
      (.error "boom")).2.2.2 (by decide) (by decide) (by decide)).1 "boom" rfl,
    (loader_url_sources_only notReadySeed "./openapi.json" (.error "boom")).2.1 (by decide)⟩

/-- C1 counterexample: `getT`'s only declared path parameter is named
`api_token`; called with no arguments, that parameter is silently dropped
from the elicitation list, so the call is neither rejected nor elicited and
the request goes upstream with the literal placeholder still in the URL —
refuting the universally quantified claim at this parameter name. -/
theorem placeholder_leak_counterexample :
    (callToolHandler mainServer "getT" (.vObj []) okOracle).issued =
      some ⟨"GET", "/t/" ++ mkPlaceholder "api_token", none, .vUndefined, [], none⟩ ∧
    jsIncludes ("/t/" ++ mkPlaceholder "api_token") (mkPlaceholder "api_token") = true ∧
    (callToolHandler mainServer "getT" (.vObj []) okOracle).outcome =
      CallOutcome.success (.vStr "payload") :=
  ⟨rfl, by decide, rfl⟩

/-- C1 (amended): on an operation whose path template is well-formed
(brace-free literals and parameter names, no duplicate placeholder,
placeholders naming exactly the declared path parameters), a declared path
parameter whose sanitized name is not `api_token` and which has no caller
value forces an elicitation response and no upstream request; and when
every declared path parameter has a caller value, the issued request's URL
contains no literal placeholder at all — each placeholder is replaced by
the URL-encoded caller value, and percent-encoding is brace-free, so no
placeholder survives or reappears.  The rejection guarantee deliberately
excludes a path parameter named `api_token`, which the elicitation filter
drops. -/
theorem path_placeholder_resolution
    (srv : ServerState) (name : String) (args : JValue) (o : Oracle) (op : Operation)
    (segs : List Seg)
    (h_ready : srv.isReady = true)
    (h_nosc : ¬ ((proxyUpdateValue args).isSome ∧ name = "getProxyUsers"))
    (h_lookup : srv.operationMap.lookup name = some op)
    (h_tpl : op.path = renderTemplate [] segs)
    (h_wf : ∀ sg ∈ segs, segWF sg = true)
    (h_nodup : (segParams segs).Nodup)
    (h_cover : ∀ q, q ∈ op.pathParams → Seg.param q ∈ segs)
    (h_full : ∀ q, Seg.param q ∈ segs → q ∈ op.pathParams) :
    ((∃ p, p ∈ op.pathParams ∧ sanitizeName p ≠ "api_token" ∧
        jIsUndefined (jCoalesce (jget (opArgsOrEmpty args) p)
          (jget (opArgsOrEmpty args) (sanitizeName p))) = true) →
      (∃ rs, (callToolHandler srv name args o).outcome = CallOutcome.elicitation rs) ∧
      (callToolHandler srv name args o).issued = none) ∧
    ((∀ p, p ∈ op.pathParams →
        jIsUndefined (jCoalesce (jget (opArgsOrEmpty args) p)
          (jget (opArgsOrEmpty args) (sanitizeName p))) = false) →
      ∀ req, (callToolHandler srv name args o).issued = some req →
        ∀ q, jsIncludes req.url (mkPlaceholder q) = false) := by
  constructor
  · rintro ⟨p, hp_mem, hp_name, hp_absent⟩
    obtain ⟨mi, hmi_mem, hmi_name, hmi_loc⟩ :=
      buildPath_miss_mem (opArgsOrEmpty args) op.pathParamDefs op.pathParams op.path []
        p hp_mem hp_absent
    have h2 : mi ∈ (opQueryStage op args).snd :=
      buildQuery_miss_sub (opArgsOrEmpty args) op.queryParamDefs op.queryParams []
        (opUrlStage op args).snd mi hmi_mem
    have h3 : mi ∈ (opHeaderStage op args (postProxyClient srv args) o).miss :=
      buildHeaders_miss_sub (opArgsOrEmpty args) op.headerParamDefs o op.headerParams
        ⟨[], (opQueryStage op args).snd, postProxyClient srv args, 0⟩ mi h2
    have h4 := opMissingInputs_sub op args (postProxyClient srv args) o mi h3
    have hname : mi.name ≠ "api_token" := by
      rw [hmi_name]
      exact hp_name
    have h5 : mi ∈ opFilteredMissing op args (postProxyClient srv args) o :=
      List.mem_filter.mpr ⟨h4, decide_eq_true hname⟩
    rw [callToolHandler_eq_dispatchOp srv name args o op h_ready h_nosc h_lookup]
    cases hfm : opFilteredMissing op args (postProxyClient srv args) o with
    | nil =>
      rw [hfm] at h5
      exact absurd h5 (List.not_mem_nil mi)
    | cons mi2 ms =>
      rw [dispatchOp_elicit srv op args (postProxyClient srv args) o mi2 ms hfm]
      exact ⟨⟨_, rfl⟩, rfl⟩
  · intro hsup req hreq q
    rw [callToolHandler_eq_dispatchOp srv name args o op h_ready h_nosc h_lookup] at hreq
    have hurl := dispatchOp_issued_url srv op args (postProxyClient srv args) o req hreq
    obtain ⟨S2, hS2, hS2v, hS2f⟩ := buildPath_render (opArgsOrEmpty args)
      op.pathParamDefs segs h_wf h_nodup op.pathParams [] [] h_cover
      (fun q2 w h => Option.noConfusion h) hsup (fun q2 hq2 _ => h_full q2 hq2)
    have hfst : (opUrlStage op args).fst = renderTemplate S2 segs := by
      rw [show opUrlStage op args =
          buildPath (opArgsOrEmpty args) op.pathParamDefs op.pathParams op.path []
          from rfl, h_tpl]
      exact hS2
    have hno := renderTemplate_noOpen S2 segs h_wf hS2v hS2f
    rw [hurl]
    rw [show opFinalUrl op args =
        restoreTrailingSlash op.pathHasTrailingSlash (opUrlStage op args).fst from rfl,
      hfst]
    exact jsIncludes_of_noOpen _ q
      (restoreTrailingSlash_noOpen op.pathHasTrailingSlash _ hno)

/-- C1 witness: the amended theorem at `getWidget`: a call missing `id` is
elicited and issues nothing, and a call supplying `id` issues a request
whose URL retains no placeholder. -/
theorem path_placeholder_resolution_witness :
    ((∃ rs, (callToolHandler mainServer "getWidget" (.vObj []) okOracle).outcome =
        CallOutcome.elicitation rs) ∧
      (callToolHandler mainServer "getWidget" (.vObj []) okOracle).issued = none) ∧
    (∀ req, (callToolHandler mainServer "getWidget" (.vObj [("id", .vStr "a b")])
        okOracle).issued = some req →
      ∀ q, jsIncludes req.url (mkPlaceholder q) = false) ∧
    (callToolHandler mainServer "getWidget" (.vObj [("id", .vStr "a b")])
        okOracle).issued.isSome = true := by
  have hcov : ∀ q, q ∈ opWidget.pathParams → Seg.param q ∈ widgetSegs := by
    intro q hq
    have hq2 := List.mem_singleton.mp hq
    subst hq2
    exact List.mem_cons_of_mem _ (List.mem_cons_self _ _)
  have hful : ∀ q, Seg.param q ∈ widgetSegs → q ∈ opWidget.pathParams := by
    intro q hq
    rcases List.mem_cons.mp hq with h | h
    · exact absurd h (fun hx => Seg.noConfusion hx)
    · rcases List.mem_cons.mp h with h2 | h2
      · injection h2 with h3
        subst h3
        exact List.mem_cons_self _ _
      · exact absurd h2 (List.not_mem_nil _)
  have h1 := path_placeholder_resolution mainServer "getWidget" (.vObj []) okOracle
    opWidget widgetSegs rfl (by decide) rfl rfl (by decide) (by decide) hcov hful
  have h2 := path_placeholder_resolution mainServer "getWidget"
    (.vObj [("id", .vStr "a b")]) okOracle
    opWidget widgetSegs rfl (by decide) rfl rfl (by decide) (by decide) hcov hful
  exact ⟨h1.1 ⟨"id", List.mem_cons_self _ _, by decide, by decide⟩, h2.2 (by decide), rfl⟩

end ScanMCP
